import Mathlib

/-!
Verification development for the CortenMM simulator (`cortenmm` Python package).

The definitions below are a shallow embedding of the Python sources:
  * `cortenmm/core.py`      — `Status`, `PTE`, `PTEMetadata`, `PageDescriptor`,
                              `PageTablePage`, `parse_vaddr`, `make_vaddr`;
  * `cortenmm/cursor.py`    — `RCursor` and its operations;
  * `cortenmm/addrspace.py` — `AddrSpace`, the lock protocol, `remove_page_table`,
                              the RCU reclaimer;
  * `cortenmm/syscalls.py`  — `CortenMMSystem` with mmap / munmap /
                              handle_page_fault / fork-COW.

Modelling conventions:
  * Python objects are immutable Lean values; mutation becomes state passing.
    A page-table page is identified by its index path from the root, so a
    cursor records the paths of the pages whose descriptor locks it holds,
    and every cursor operation rebuilds the tree along that path.
  * Python `int` is `Nat` (all values in the simulator are non-negative);
    `x & ~0xFFF` on non-negative ints is `x / 4096 * 4096`.
  * `while` loops that advance a virtual address by one page per iteration are
    translated to structural recursion on the number of remaining pages,
    which is computed from the loop bounds before entering the loop.
  * `time.time()` timestamps in the RCU reclaimer are modelled by a logical
    clock that advances on every enqueue; no claim depends on real time.
  * Exceptions that a caller catches, and code paths that raise them, are
    modelled with `Option`: `none` stands for the raised exception, and the
    state returned alongside it is the state at the raise point.
-/

namespace Cortenmm

/-- `Status` enumeration from `core.py`: the software-visible state of one entry. -/
inductive Status where
  | Invalid
  | Mapped
  | PrivateAnon
  | COW
  | FileMapped
  deriving DecidableEq

/-- Hardware page-table entry, from `core.py` (`class PTE`).  Field defaults
match the Python dataclass defaults: in particular `user` defaults to `True`. -/
structure PTE where
  pfn : Option Nat := none
  present : Bool := false
  rw : Bool := false
  user : Bool := true
  accessed : Bool := false
  dirty : Bool := false
  deriving DecidableEq

/-- `PTE.clear` from `core.py`: resets `pfn`, `present`, `rw`, `accessed` and
`dirty`.  The Python method does not assign to `user`, so `user` keeps its
current value. -/
def PTE.clear (p : PTE) : PTE :=
  { p with pfn := none, present := false, rw := false, accessed := false, dirty := false }

/-- `PTE.is_valid` from `core.py`: `present and pfn is not None`. -/
def PTE.is_valid (p : PTE) : Bool :=
  p.present && p.pfn.isSome

/-- Per-entry software metadata, from `core.py` (`class PTEMetadata`). -/
structure PTEMetadata where
  status : Status := Status.Invalid
  soft_perm : Nat := 0
  refcount : Nat := 0
  file_offset : Option Nat := none
  deriving DecidableEq

/-- Page descriptor, from `core.py` (`class PageDescriptor`): the per-page
metadata slots, the RCU stale flag and the version counter.  The
`threading.Lock` member carries no state of its own; lock ownership is
tracked by the cursor (`RCursor.locked_paths`) and, for the detach path,
by the event traces defined near `detachTrace`. -/
structure PageDescriptor where
  per_pte_metadata : Nat → PTEMetadata
  is_stale : Bool
  version : Nat

/-- A fresh `PageDescriptor`, as built by `PageDescriptor.__init__`. -/
def PageDescriptor.fresh : PageDescriptor :=
  { per_pte_metadata := fun _ => {}, is_stale := false, version := 0 }

/-- `PageDescriptor.mark_stale` from `core.py`. -/
def PageDescriptor.mark_stale (d : PageDescriptor) : PageDescriptor :=
  { d with is_stale := true }

/-- `PageDescriptor.increment_version` from `core.py`. -/
def PageDescriptor.increment_version (d : PageDescriptor) : PageDescriptor :=
  { d with version := d.version + 1 }

/-- Page-table page, from `core.py` (`class PageTablePage`): 512 hardware PTEs,
the descriptor, 512 child references and the level (0 = leaf).  The PTE and
child arrays are modelled as total functions on `Nat`; the simulator only
ever uses indices below 512 (`parse_vaddr` masks with `0x1FF`). -/
inductive PageTablePage where
  | mk (ptes : Nat → PTE) (descriptor : PageDescriptor)
      (children : Nat → Option PageTablePage) (level : Nat)

/-- Pointwise update of a function-backed array at one index. -/
def updFn {α : Type} (f : Nat → α) (i : Nat) (v : α) : Nat → α :=
  fun j => if j = i then v else f j

/-- Pointwise update of an optional-valued map at one key, as Python
`dict[key] = value`. -/
def updMap (f : Nat → Option Nat) (k v : Nat) : Nat → Option Nat :=
  fun j => if j = k then some v else f j

def PageTablePage.ptes : PageTablePage → Nat → PTE
  | .mk p _ _ _ => p

def PageTablePage.descriptor : PageTablePage → PageDescriptor
  | .mk _ d _ _ => d

def PageTablePage.children : PageTablePage → Nat → Option PageTablePage
  | .mk _ _ c _ => c

def PageTablePage.level : PageTablePage → Nat
  | .mk _ _ _ l => l

/-- A fresh page-table page of the given level, as `PageTablePage.__init__`:
all PTEs cleared to defaults, fresh descriptor, no children. -/
def PageTablePage.fresh (level : Nat) : PageTablePage :=
  .mk (fun _ => {}) PageDescriptor.fresh (fun _ => none) level

/-- `PageTablePage.is_leaf` from `core.py`. -/
def PageTablePage.is_leaf (p : PageTablePage) : Bool :=
  p.level == 0

/-- `PageTablePage.get_pte` from `core.py`. -/
def PageTablePage.get_pte (p : PageTablePage) (i : Nat) : PTE :=
  p.ptes i

/-- `PageTablePage.get_metadata` from `core.py`. -/
def PageTablePage.get_metadata (p : PageTablePage) (i : Nat) : PTEMetadata :=
  p.descriptor.per_pte_metadata i

/-- `PageTablePage.get_child` from `core.py`. -/
def PageTablePage.get_child (p : PageTablePage) (i : Nat) : Option PageTablePage :=
  p.children i

/-- `PageTablePage.set_child` from `core.py`. -/
def PageTablePage.set_child (p : PageTablePage) (i : Nat) (c : Option PageTablePage) :
    PageTablePage :=
  .mk p.ptes p.descriptor (updFn p.children i c) p.level

/-- Rebuild a page with new PTE array. -/
def PageTablePage.withPtes (p : PageTablePage) (f : Nat → PTE) : PageTablePage :=
  .mk f p.descriptor p.children p.level

/-- Rebuild a page with a new descriptor. -/
def PageTablePage.withDescriptor (p : PageTablePage) (d : PageDescriptor) : PageTablePage :=
  .mk p.ptes d p.children p.level

/-- Mark a page's descriptor stale, as done through `descriptor.mark_stale()`. -/
def PageTablePage.markStale (p : PageTablePage) : PageTablePage :=
  p.withDescriptor p.descriptor.mark_stale

/-- The loop body of `parse_vaddr` from `core.py`: extract `levels` groups of
9 bits from the virtual page number, lowest group first. -/
def parseGo (vpn : Nat) : Nat → List Nat
  | 0 => []
  | n + 1 => (vpn &&& 0x1FF) :: parseGo (vpn >>> 9) n

/-- `parse_vaddr` from `core.py`: shift off the 12 offset bits, extract
`levels` 9-bit indices, and return them highest level first. -/
def parse_vaddr (vaddr : Nat) (levels : Nat) : List Nat :=
  (parseGo (vaddr >>> 12) levels).reverse

/-- `make_vaddr` from `core.py`: fold the indices back, highest level first,
then append the 12-bit offset. -/
def make_vaddr (indices : List Nat) (offset : Nat) : Nat :=
  ((indices.foldl (fun v idx => (v <<< 9) ||| idx) 0) <<< 12) ||| offset

/-- The leaf-level PTE index of an address: `parse_vaddr(vaddr)[-1]` with the
default four levels, as used by every `RCursor` operation in `cursor.py`. -/
def pteIndex (vaddr : Nat) : Nat :=
  (parse_vaddr vaddr 4).getLastD 0

/-- `vaddr & ~0xFFF` for a non-negative integer. -/
def alignDown (v : Nat) : Nat :=
  v / 4096 * 4096

/-- `(vaddr + 0xFFF) & ~0xFFF` for a non-negative integer. -/
def alignUp (v : Nat) : Nat :=
  (v + 4095) / 4096 * 4096

/-!  Tree walks.  In the Python code a traversal follows `get_child` along the
index list of an address; pages are mutable objects, so mutating a page found
by a walk mutates the tree.  Functionally, a walk is recursion on the index
list, and a mutation is a rebuild along the same list (`updateAtPath`). -/

/-- Follow child links along an index path (the loop of `_ensure_leaf_page`
and `_traverse_rcu` in `addrspace.py`); `none` when a link is absent. -/
def walkPath : PageTablePage → List Nat → Option PageTablePage
  | page, [] => some page
  | page, i :: rest =>
    match page.get_child i with
    | none => none
    | some c => walkPath c rest

/-- Rebuild the page at the end of an existing path with `f`.  This is the
functional counterpart of mutating, in place, a page object found by a walk.
If a link on the path is absent the tree is returned unchanged (the Python
code never takes that case: cursors only touch pages they walked to). -/
def updateAtPath : PageTablePage → List Nat → (PageTablePage → PageTablePage) → PageTablePage
  | page, [], f => f page
  | page, i :: rest, f =>
    match page.get_child i with
    | none => page
    | some c => page.set_child i (some (updateAtPath c rest f))

/-- The creation loop of `_create_leaf_page` in `addrspace.py`: walk the index
path from `page`, creating each absent child with the given level (the Python
loop passes `levels - 2 - i` at step `i`, i.e. the level decreases by one per
step).  Returns the rebuilt subtree and the page reached at the end. -/
def create_leaf_go : PageTablePage → List Nat → Nat → PageTablePage × PageTablePage
  | page, [], _ => (page, page)
  | page, i :: rest, lvl =>
    let child := (page.get_child i).getD (PageTablePage.fresh lvl)
    let r := create_leaf_go child rest (lvl - 1)
    (page.set_child i (some r.1), r.2)

/-!  Entry transforms: the bodies of the cursor operations in `cursor.py`,
each acting on one entry of one (leaf) page.  Every transform also applies
`descriptor.increment_version()` exactly where the Python code does. -/

/-- The per-page body of `RCursor.mark`: write `status` and `soft_perm` of
entry `idx` without touching the PTE, and bump the version. -/
def PageTablePage.mark_entry (page : PageTablePage) (idx : Nat) (status : Status)
    (soft_perm : Nat) : PageTablePage :=
  let m := page.get_metadata idx
  page.withDescriptor
    { page.descriptor with
      per_pte_metadata := updFn page.descriptor.per_pte_metadata idx
        { m with status := status, soft_perm := soft_perm },
      version := page.descriptor.version + 1 }

/-- The per-page body of `RCursor.map`: set the PTE's `pfn`, `present`, `rw`,
`user`, set metadata `status = Mapped` and `soft_perm = 0b111` or `0b101`,
and bump the version.  `accessed` and `dirty` are not assigned. -/
def PageTablePage.map_entry (page : PageTablePage) (idx pfn : Nat) (writable : Bool) :
    PageTablePage :=
  let pte := page.get_pte idx
  let m := page.get_metadata idx
  (page.withPtes (updFn page.ptes idx
      { pte with pfn := some pfn, present := true, rw := writable, user := true })).withDescriptor
    { page.descriptor with
      per_pte_metadata := updFn page.descriptor.per_pte_metadata idx
        { m with status := Status.Mapped, soft_perm := if writable then 0b111 else 0b101 },
      version := page.descriptor.version + 1 }

/-- The per-page body of `RCursor.unmap` and of the clearing branch of
`RCursor.unmap_range`: `pte.clear()`, metadata reset to
`Invalid`/`soft_perm=0`/`refcount=0`, version bump. -/
def PageTablePage.clear_entry (page : PageTablePage) (idx : Nat) : PageTablePage :=
  let pte := page.get_pte idx
  let m := page.get_metadata idx
  (page.withPtes (updFn page.ptes idx pte.clear)).withDescriptor
    { page.descriptor with
      per_pte_metadata := updFn page.descriptor.per_pte_metadata idx
        { m with status := Status.Invalid, soft_perm := 0, refcount := 0 },
      version := page.descriptor.version + 1 }

/-- The single-reference branch of `_handle_cow_write` in `syscalls.py`:
flip `pte.rw` to true in place, set metadata `status = PrivateAnon` and
`refcount = 1`.  No version bump happens in this branch. -/
def PageTablePage.cow_flip_entry (page : PageTablePage) (idx : Nat) : PageTablePage :=
  let pte := page.get_pte idx
  let m := page.get_metadata idx
  (page.withPtes (updFn page.ptes idx { pte with rw := true })).withDescriptor
    { page.descriptor with
      per_pte_metadata := updFn page.descriptor.per_pte_metadata idx
        { m with status := Status.PrivateAnon, refcount := 1 } }

/-- The metadata rewrite that follows `cursor.map` in the copying branch of
`_handle_cow_write`: `metadata.status = PrivateAnon; metadata.refcount = 1`.
No version bump happens for this rewrite. -/
def PageTablePage.cow_priv_entry (page : PageTablePage) (idx : Nat) : PageTablePage :=
  let m := page.get_metadata idx
  page.withDescriptor
    { page.descriptor with
      per_pte_metadata := updFn page.descriptor.per_pte_metadata idx
        { m with status := Status.PrivateAnon, refcount := 1 } }

/-- The per-entry body of `do_fork_cow` in `syscalls.py` (only applied when
the PTE is valid and the status is `Mapped`): `status = COW`, `pte.rw =
False`, `metadata.refcount = g` where `g` is the incremented global
refcount.  No version bump happens here. -/
def PageTablePage.fork_entry (page : PageTablePage) (idx g : Nat) : PageTablePage :=
  let pte := page.get_pte idx
  let m := page.get_metadata idx
  (page.withPtes (updFn page.ptes idx { pte with rw := false })).withDescriptor
    { page.descriptor with
      per_pte_metadata := updFn page.descriptor.per_pte_metadata idx
        { m with status := Status.COW, refcount := g } }

/-!  The transactional cursor from `cursor.py`.  A Python cursor holds
references to the locked page objects; here it holds their index paths, and
every operation takes the current root.  Each operation that scans
`self.locked_pages` for the first leaf does so through `findLeafPath`. -/

/-- `RCursor` from `cursor.py`: the scoped range and the pages whose
descriptor locks it holds, in acquisition order. -/
structure RCursor where
  vaddr_start : Nat
  vaddr_end : Nat
  locked_paths : List (List Nat)
  deriving DecidableEq

/-- The scan `for pt_page, _ in self.locked_pages: if pt_page.is_leaf(): ...`
shared by `query`, `map`, `unmap`, `unmap_range` and `get_pte_and_metadata`:
the first locked page that is a leaf. -/
def findLeafPath (root : PageTablePage) : List (List Nat) → Option (List Nat)
  | [] => none
  | p :: rest =>
    match walkPath root p with
    | some page => if page.is_leaf then some p else findLeafPath root rest
    | none => findLeafPath root rest

/-- `RCursor.query`: the metadata status of the entry containing `vaddr` in
the first locked leaf; `Invalid` when no locked leaf exists.  `none` models
the `assert` failing (`vaddr` outside the cursor range). -/
def RCursor.queryOp (c : RCursor) (root : PageTablePage) (vaddr : Nat) : Option Status :=
  if c.vaddr_start ≤ vaddr ∧ vaddr < c.vaddr_end then
    match findLeafPath root c.locked_paths with
    | some p =>
      match walkPath root p with
      | some page => some (page.get_metadata (pteIndex vaddr)).status
      | none => some Status.Invalid
    | none => some Status.Invalid
  else none

/-- `RCursor.map`: update the entry of the first locked leaf.  `none` models
the raised exception (assert failure or `RuntimeError` when no leaf is
locked); in both cases the Python method has not mutated anything yet. -/
def RCursor.mapOp (c : RCursor) (root : PageTablePage) (vaddr pfn : Nat)
    (writable : Bool) : Option PageTablePage :=
  if c.vaddr_start ≤ vaddr ∧ vaddr < c.vaddr_end then
    match findLeafPath root c.locked_paths with
    | some p => some (updateAtPath root p (fun page => page.map_entry (pteIndex vaddr) pfn writable))
    | none => none
  else none

/-- `RCursor.unmap`: clear the entry of the first locked leaf.  `none` models
the raised exception, before any mutation. -/
def RCursor.unmapOp (c : RCursor) (root : PageTablePage) (vaddr : Nat) :
    Option PageTablePage :=
  if c.vaddr_start ≤ vaddr ∧ vaddr < c.vaddr_end then
    match findLeafPath root c.locked_paths with
    | some p => some (updateAtPath root p (fun page => page.clear_entry (pteIndex vaddr)))
    | none => none
  else none

/-- `RCursor.get_pte_and_metadata`: the PTE and metadata of the entry in the
first locked leaf; `none` both for `return None` (no locked leaf) and for the
assert failing — every caller in `syscalls.py` treats the two identically
except `do_fork_cow`, whose loop keeps the address inside the range so the
assert never fires there. -/
def RCursor.get_pte_and_metadata (c : RCursor) (root : PageTablePage) (vaddr : Nat) :
    Option (PTE × PTEMetadata) :=
  if c.vaddr_start ≤ vaddr ∧ vaddr < c.vaddr_end then
    match findLeafPath root c.locked_paths with
    | some p =>
      match walkPath root p with
      | some page => some (page.get_pte (pteIndex vaddr), page.get_metadata (pteIndex vaddr))
      | none => none
    | none => none
  else none

/-- One iteration of the `RCursor.mark` loop: apply the metadata write to
every locked page that is a leaf (the Python loop has no `break`). -/
def markAll (paths : List (List Nat)) (vaddr : Nat) (status : Status) (soft_perm : Nat)
    (root : PageTablePage) : PageTablePage :=
  paths.foldl
    (fun r p =>
      match walkPath r p with
      | some page =>
        if page.is_leaf then updateAtPath r p (fun pg => pg.mark_entry (pteIndex vaddr) status soft_perm)
        else r
      | none => r)
    root

/-- The `while vaddr < self.vaddr_end` loop of `RCursor.mark`, as recursion on
the number of remaining pages. -/
def markLoop (paths : List (List Nat)) (status : Status) (soft_perm : Nat) :
    Nat → Nat → PageTablePage → PageTablePage
  | _, 0, root => root
  | vaddr, n + 1, root =>
    markLoop paths status soft_perm (vaddr + 4096) n (markAll paths vaddr status soft_perm root)

/-- `RCursor.mark` from `cursor.py`: write `status` and `soft_perm` into the
metadata of every page of `[vaddr_start, vaddr_end)`, never touching PTEs. -/
def RCursor.mark (c : RCursor) (root : PageTablePage) (status : Status) (soft_perm : Nat) :
    PageTablePage :=
  markLoop c.locked_paths status soft_perm c.vaddr_start
    ((c.vaddr_end - c.vaddr_start + 4095) / 4096) root

/-- One iteration of `RCursor.unmap_range`: find the first locked leaf; if the
entry's status is not `Invalid`, clear PTE and metadata and bump the version
(the loop body is wrapped in `try/except: pass`, and `break`s after the
first leaf). -/
def unmapStep (paths : List (List Nat)) (vaddr : Nat) (root : PageTablePage) : PageTablePage :=
  match findLeafPath root paths with
  | some p =>
    updateAtPath root p
      (fun page =>
        if (page.get_metadata (pteIndex vaddr)).status ≠ Status.Invalid then
          page.clear_entry (pteIndex vaddr)
        else page)
  | none => root

/-- The `while` loop of `RCursor.unmap_range`, as recursion on the number of
remaining pages. -/
def unmapLoop (paths : List (List Nat)) : Nat → Nat → PageTablePage → PageTablePage
  | _, 0, root => root
  | vaddr, n + 1, root => unmapLoop paths (vaddr + 4096) n (unmapStep paths vaddr root)

/-- `RCursor.unmap_range` from `cursor.py`. -/
def RCursor.unmap_range (c : RCursor) (root : PageTablePage) : PageTablePage :=
  unmapLoop c.locked_paths c.vaddr_start ((c.vaddr_end - c.vaddr_start + 4095) / 4096) root

/-!  The address space from `addrspace.py`.  The RCU reclaimer queue holds
`(timestamp, page)` pairs; `time.time()` is modelled by the logical clock
`clock`, which advances on every `defer_free`. -/

/-- `AddrSpace` together with its `RCUReclaimer`: the root page, the level
count, the monotonic frame allocator (`next_pfn`, starting at 0x1000) and
the reclaimer queue with its logical clock. -/
structure AddrSpace where
  root : PageTablePage
  levels : Nat
  next_pfn : Nat
  rcu_queue : List (Nat × PageTablePage)
  clock : Nat

/-- `AddrSpace.__init__(levels)`: a root page of level `levels - 1`, frame
counter at 0x1000, empty reclaimer queue. -/
def AddrSpace.fresh (levels : Nat) : AddrSpace :=
  { root := PageTablePage.fresh (levels - 1), levels := levels, next_pfn := 0x1000,
    rcu_queue := [], clock := 0 }

/-- `AddrSpace.allocate_pfn`: hand out the counter value and increment it. -/
def AddrSpace.allocate_pfn (s : AddrSpace) : AddrSpace × Nat :=
  ({ s with next_pfn := s.next_pfn + 1 }, s.next_pfn)

/-- `RCUReclaimer.defer_free`: mark the page stale and enqueue it with the
current timestamp. -/
def AddrSpace.defer_free (s : AddrSpace) (page : PageTablePage) : AddrSpace :=
  { s with rcu_queue := s.rcu_queue ++ [(s.clock, page.markStale)], clock := s.clock + 1 }

/-- The pop loop of `RCUReclaimer.try_reclaim`: drop queue entries whose
grace period has elapsed, stopping at the first one that has not. -/
def reclaimGo (now grace : Nat) : List (Nat × PageTablePage) → List (Nat × PageTablePage)
  | [] => []
  | (t, p) :: rest => if grace ≤ now - t then reclaimGo now grace rest else (t, p) :: rest

/-- `RCUReclaimer.try_reclaim` with the default grace period, called on every
cursor-scope exit (one logical tick stands for the 1 ms default). -/
def AddrSpace.try_reclaim (s : AddrSpace) : AddrSpace :=
  { s with rcu_queue := reclaimGo s.clock 1 s.rcu_queue }

/-- `AddrSpace._ensure_leaf_page`: walk `indices[:-1]` from the root without
creating anything. -/
def AddrSpace.ensure_leaf_page (s : AddrSpace) (vaddr : Nat) : Option PageTablePage :=
  walkPath s.root (parse_vaddr vaddr s.levels).dropLast

/-- `AddrSpace._create_leaf_page`: under the structural lock, walk
`indices[:-1]` creating missing pages (the first created child has level
`levels - 2`, decreasing by one per step); returns the new state and the
page reached. -/
def AddrSpace.create_leaf_page (s : AddrSpace) (vaddr : Nat) : AddrSpace × PageTablePage :=
  let r := create_leaf_go s.root (parse_vaddr vaddr s.levels).dropLast (s.levels - 2)
  ({ s with root := r.1 }, r.2)

/-!  `_dfs_lock_subtree`.  The Python recursion terminates because the tree is
finite and acyclic; structural recursion here is on a fuel argument, and
`lock` passes `page.level + 1`, which is exactly the subtree depth for the
trees this module builds (a page of level `l` has children of level `l-1`).
Results are paths relative to the subtree root, in the same depth-first,
ascending-index visit order as the Python list of locked pages.  `none`
models the `RuntimeError` raised on a stale child (and, artificially,
exhausted fuel, which cannot happen on the module's own trees). -/

/-- The `for i in range(PTES_PER_PAGE)` loop of `_dfs_lock_subtree`, iterating
`n` indices starting at `i`.  `rec` is the recursive descent applied to each
existing child after its lock-and-validate succeeds. -/
def dfsKids (rec : PageTablePage → Option (List (List Nat))) (page : PageTablePage) :
    Nat → Nat → Option (List (List Nat))
  | _, 0 => some []
  | i, n + 1 =>
    match page.get_child i with
    | none => dfsKids rec page (i + 1) n
    | some c =>
      if c.descriptor.is_stale then none
      else
        match rec c, dfsKids rec page (i + 1) n with
        | some sub, some rest => some (sub.map (fun q => i :: q) ++ rest)
        | _, _ => none

/-- `_dfs_lock_subtree` from `addrspace.py`, with fuel (see above): the page
itself first, then each existing child's subtree in ascending index order. -/
def dfsGo : Nat → PageTablePage → Option (List (List Nat))
  | 0, _ => none
  | fuel + 1, page =>
    if page.is_leaf then some [[]]
    else
      match dfsKids (dfsGo fuel) page 0 512 with
      | none => none
      | some l => some ([] :: l)

/-- One attempt of the retry loop in `AddrSpace.lock`: ensure/create the leaf
page covering `startA`, lock-and-validate it, optionally DFS-lock its
subtree, and build the cursor.  The returned state keeps any pages the
attempt created, also on failure. -/
def AddrSpace.lockAttempt (s : AddrSpace) (startA endA : Nat) (deep : Bool) :
    AddrSpace × Option RCursor :=
  let path := (parse_vaddr startA s.levels).dropLast
  let r :=
    match s.ensure_leaf_page startA with
    | some page => (s, page)
    | none => s.create_leaf_page startA
  let s1 := r.1
  let page := r.2
  if page.descriptor.is_stale then (s1, none)
  else
    if deep then
      match dfsGo (page.level + 1) page with
      | none => (s1, none)
      | some rels =>
        (s1, some { vaddr_start := startA, vaddr_end := endA,
                    locked_paths := rels.map (fun q => path ++ q) })
    else
      (s1, some { vaddr_start := startA, vaddr_end := endA, locked_paths := [path] })

/-- The `for retry in range(max_retries)` loop of `AddrSpace.lock`. -/
def lockLoop (startA endA : Nat) (deep : Bool) : Nat → AddrSpace → AddrSpace × Option RCursor
  | 0, s => (s, none)
  | n + 1, s =>
    match s.lockAttempt startA endA deep with
    | (s1, some c) => (s1, some c)
    | (s1, none) => lockLoop startA endA deep n s1

/-- `AddrSpace.lock` from `addrspace.py`: align the range, then retry the
traverse / lock-and-validate / optional-DFS attempt up to 10 times.  `none`
is the `RuntimeError` after exhausted retries. -/
def AddrSpace.lock (s : AddrSpace) (vaddr_start vaddr_end : Nat) (deep : Bool) :
    AddrSpace × Option RCursor :=
  lockLoop (alignDown vaddr_start) (alignUp vaddr_end) deep 10 s

/-- The scope exit of `AddrSpace.lock`: the cursor's locks are released and
`try_reclaim` runs.  Lock release itself has no effect on the functional
state. -/
def AddrSpace.post_scope (s : AddrSpace) : AddrSpace :=
  s.try_reclaim

/-- `AddrSpace.remove_page_table` from `addrspace.py`: under the structural
lock, walk `indices[:-2]` to the parent; if every link exists and the child
at `indices[-2]` exists, lock it, sever the link, unlock it, and hand it to
the reclaimer (`defer_free`).  If a link is absent the method returns with
no effect.  When `indices` has fewer than two elements, `indices[-2]`
raises `IndexError` before any mutation, so the state is also unchanged. -/
def AddrSpace.remove_page_table (s : AddrSpace) (vaddr : Nat) : AddrSpace :=
  let idxs := parse_vaddr vaddr s.levels
  if idxs.length < 2 then s
  else
    let interior := idxs.dropLast.dropLast
    let tIdx := idxs.dropLast.getLastD 0
    match walkPath s.root interior with
    | none => s
    | some parent =>
      match parent.get_child tIdx with
      | none => s
      | some target =>
        let s1 := { s with root := updateAtPath s.root interior (fun pg => pg.set_child tIdx none) }
        s1.defer_free target

/-!  The system-call layer from `syscalls.py`. -/

/-- `CortenMMSystem`: an address space (`AddrSpace()`, four levels) plus the
global COW refcount dictionary `pfn -> refcount`. -/
structure CortenMMSystem where
  addr_space : AddrSpace
  cow_refcounts : Nat → Option Nat

/-- `CortenMMSystem.__init__`. -/
def CortenMMSystem.fresh : CortenMMSystem :=
  { addr_space := AddrSpace.fresh 4, cow_refcounts := fun _ => none }

/-- `do_syscall_mmap`: align, lock the range with a shallow cursor, mark it
`PrivateAnon` with the requested `prot`, return the aligned start; `-1` when
the lock raises (the pages a failed attempt created are kept — the Python
exception path does not roll them back, and `try_reclaim` does not run
because the failure happens before the `yield`). -/
def CortenMMSystem.do_syscall_mmap (sys : CortenMMSystem) (vaddr length prot : Nat) :
    CortenMMSystem × Int :=
  let a := alignDown vaddr
  let e := alignUp (a + length)
  match sys.addr_space.lock a e false with
  | (sp, none) => ({ sys with addr_space := sp }, -1)
  | (sp, some c) =>
    let root1 := c.mark sp.root Status.PrivateAnon prot
    ({ sys with addr_space := AddrSpace.post_scope { sp with root := root1 } }, (a : Int))

/-- `do_syscall_munmap`: align, lock, `unmap_range`; 0 on success, -1 when
the lock raises. -/
def CortenMMSystem.do_syscall_munmap (sys : CortenMMSystem) (vaddr length : Nat) :
    CortenMMSystem × Int :=
  let a := alignDown vaddr
  let e := alignUp (a + length)
  match sys.addr_space.lock a e false with
  | (sp, none) => ({ sys with addr_space := sp }, -1)
  | (sp, some c) =>
    let root1 := c.unmap_range sp.root
    ({ sys with addr_space := AddrSpace.post_scope { sp with root := root1 } }, 0)

/-- `_handle_cow_write` from `syscalls.py`, acting on the address space `sp`
held open by the cursor.  Returns the address space, the refcount map and
the handler's boolean result.  The `cursor.map` call cannot raise here in
practice (the cursor always holds the leaf it just queried); if it did, the
exception would propagate with the refcounts untouched, which the `none`
branch mirrors. -/
def CortenMMSystem.handle_cow_write (sys : CortenMMSystem) (sp : AddrSpace) (c : RCursor)
    (vaddr : Nat) : AddrSpace × (Nat → Option Nat) × Bool :=
  match c.get_pte_and_metadata sp.root vaddr with
  | none => (sp, sys.cow_refcounts, false)
  | some (pte, _m) =>
    if pte.is_valid then
      let old_pfn := pte.pfn.getD 0
      let refcount := (sys.cow_refcounts old_pfn).getD 1
      if 1 < refcount then
        let r := sp.allocate_pfn
        let sp1 := r.1
        let new_pfn := r.2
        match c.mapOp sp1.root vaddr new_pfn true with
        | none => (sp1, sys.cow_refcounts, false)
        | some root1 =>
          let rc1 := updMap sys.cow_refcounts old_pfn (refcount - 1)
          let rc2 := updMap rc1 new_pfn 1
          let root2 :=
            match findLeafPath root1 c.locked_paths with
            | some p => updateAtPath root1 p (fun pg => pg.cow_priv_entry (pteIndex vaddr))
            | none => root1
          ({ sp1 with root := root2 }, rc2, true)
      else
        let root1 :=
          match findLeafPath sp.root c.locked_paths with
          | some p => updateAtPath sp.root p (fun pg => pg.cow_flip_entry (pteIndex vaddr))
          | none => sp.root
        ({ sp with root := root1 }, sys.cow_refcounts, true)
    else (sp, sys.cow_refcounts, false)

/-- `handle_page_fault` from `syscalls.py`: lock one page, dispatch on the
queried status.  Every return path runs the scope exit (`post_scope`),
except a lock failure, which raises before the scope is entered. -/
def CortenMMSystem.handle_page_fault (sys : CortenMMSystem) (vaddr : Nat) (is_write : Bool) :
    CortenMMSystem × Bool :=
  let a := alignDown vaddr
  match sys.addr_space.lock a (a + 0x1000) false with
  | (sp, none) => ({ sys with addr_space := sp }, false)
  | (sp, some c) =>
    match c.queryOp sp.root vaddr with
    | some Status.PrivateAnon =>
      let r := sp.allocate_pfn
      let sp1 := r.1
      let pfn := r.2
      match c.mapOp sp1.root vaddr pfn true with
      | some root1 =>
        ({ sys with addr_space := AddrSpace.post_scope { sp1 with root := root1 } }, true)
      | none => ({ sys with addr_space := AddrSpace.post_scope sp1 }, false)
    | some Status.COW =>
      if is_write then
        let r := sys.handle_cow_write sp c vaddr
        ({ sys with addr_space := AddrSpace.post_scope r.1, cow_refcounts := r.2.1 }, r.2.2)
      else
        match c.get_pte_and_metadata sp.root vaddr with
        | none => ({ sys with addr_space := AddrSpace.post_scope sp }, false)
        | some (pte, _m) =>
          ({ sys with addr_space := AddrSpace.post_scope sp }, pte.is_valid)
    | some Status.Mapped =>
      match c.get_pte_and_metadata sp.root vaddr with
      | none => ({ sys with addr_space := AddrSpace.post_scope sp }, false)
      | some (pte, _m) =>
        ({ sys with addr_space := AddrSpace.post_scope sp }, !(is_write && !pte.rw))
    | _ => ({ sys with addr_space := AddrSpace.post_scope sp }, false)

/-- One iteration of the `do_fork_cow` loop: if the entry at `vaddr` has a
valid PTE and status `Mapped`, set status `COW`, clear `pte.rw`, increment
the global refcount of its frame and mirror it into `metadata.refcount`. -/
def forkStep (c : RCursor) (vaddr : Nat) (st : PageTablePage × (Nat → Option Nat)) :
    PageTablePage × (Nat → Option Nat) :=
  let root := st.1
  let rc := st.2
  match c.get_pte_and_metadata root vaddr with
  | none => (root, rc)
  | some (pte, m) =>
    if pte.is_valid && (m.status == Status.Mapped) then
      let pfn := pte.pfn.getD 0
      let g := (rc pfn).getD 1 + 1
      let root1 :=
        match findLeafPath root c.locked_paths with
        | some p => updateAtPath root p (fun pg => pg.fork_entry (pteIndex vaddr) g)
        | none => root
      (root1, updMap rc pfn g)
    else (root, rc)

/-- The `while current_vaddr < vaddr_end` loop of `do_fork_cow`. -/
def forkLoop (c : RCursor) : Nat → Nat → PageTablePage × (Nat → Option Nat) →
    PageTablePage × (Nat → Option Nat)
  | _, 0, st => st
  | vaddr, n + 1, st => forkLoop c (vaddr + 4096) n (forkStep c vaddr st)

/-- `do_fork_cow` from `syscalls.py`: walk the aligned range under one shallow
cursor, downgrading every valid `Mapped` entry to `COW`. -/
def CortenMMSystem.do_fork_cow (sys : CortenMMSystem) (vaddr length : Nat) :
    CortenMMSystem × Bool :=
  let a := alignDown vaddr
  let e := alignUp (a + length)
  match sys.addr_space.lock a e false with
  | (sp, none) => ({ sys with addr_space := sp }, false)
  | (sp, some c) =>
    let r := forkLoop c a ((e - a + 4095) / 4096) (sp.root, sys.cow_refcounts)
    let spf := AddrSpace.post_scope { sp with root := r.1 }
    ({ sys with addr_space := spf, cow_refcounts := r.2 }, true)

/-- The public operations of claim C2: the four system calls of
`CortenMMSystem` (which invoke the cursor operations `mark`, `map`,
`unmap_range` and the COW write path exactly as `syscalls.py` does). -/
inductive SysOp where
  | mmap (vaddr length prot : Nat)
  | munmap (vaddr length : Nat)
  | pageFault (vaddr : Nat) (is_write : Bool)
  | forkCow (vaddr length : Nat)

/-- Apply one operation, discarding its return value. -/
def applyOp (sys : CortenMMSystem) : SysOp → CortenMMSystem
  | .mmap v l p => (sys.do_syscall_mmap v l p).1
  | .munmap v l => (sys.do_syscall_munmap v l).1
  | .pageFault v w => (sys.handle_page_fault v w).1
  | .forkCow v l => (sys.do_fork_cow v l).1

/-- Run a sequence of public operations from a fresh system. -/
def runOps (ops : List SysOp) : CortenMMSystem :=
  ops.foldl applyOp CortenMMSystem.fresh

/-!  Observers used to state the claims. -/

/-- What `RCursor.query` reads for an address through a cursor holding the
leaf covering it: the metadata status at the leaf reached by `indices[:-1]`,
or `Invalid` when that page is absent or not a leaf. -/
def AddrSpace.statusAt (s : AddrSpace) (vaddr : Nat) : Status :=
  match s.ensure_leaf_page vaddr with
  | some page => if page.is_leaf then (page.get_metadata (pteIndex vaddr)).status else Status.Invalid
  | none => Status.Invalid

/-- The hardware PTE of the entry covering `vaddr`, when its leaf exists. -/
def AddrSpace.pteAt (s : AddrSpace) (vaddr : Nat) : Option PTE :=
  match s.ensure_leaf_page vaddr with
  | some page => if page.is_leaf then some (page.get_pte (pteIndex vaddr)) else none
  | none => none

/-- The software metadata of the entry covering `vaddr`, when its leaf exists. -/
def AddrSpace.metaAt (s : AddrSpace) (vaddr : Nat) : Option PTEMetadata :=
  match s.ensure_leaf_page vaddr with
  | some page => if page.is_leaf then some (page.get_metadata (pteIndex vaddr)) else none
  | none => none

/-- Whether a leaf page-table page covering `vaddr` exists in the tree. -/
def AddrSpace.leafExistsAt (s : AddrSpace) (vaddr : Nat) : Bool :=
  match s.ensure_leaf_page vaddr with
  | some page => page.is_leaf
  | none => false

/-!  Event traces for the detach path (claim C6).  `remove_page_table`
followed by `defer_free` is straight-line code; its lock behaviour is the
sequence of atomic events below, in program order.  A page is identified by
its index path at the moment of the detach (paths are unique while the page
is linked).  "Holding" a lock at event `i` means the fold of
acquire/release events over the trace prefix before `i` leaves it held. -/

inductive LockEvent where
  | acquireStructural
  | releaseStructural
  | acquirePage (path : List Nat)
  | releasePage (path : List Nat)
  | acquireReclaimer
  | releaseReclaimer
  | clearChildLink (parentPath : List Nat) (idx : Nat)
  | setStale (path : List Nat)
  | enqueuePage (path : List Nat)
  deriving DecidableEq

/-- The events emitted by one execution of `AddrSpace.remove_page_table` on
state `s`, including the `defer_free` it performs: acquire the structural
mutex; walk `indices[:-2]` (no locks taken during the walk); if the walk or
the target link fails, return (releasing the structural mutex).  Otherwise:
acquire the target's descriptor lock, sever the parent link, release the
target's lock, then — inside `defer_free`, under the reclaimer mutex — set
`is_stale` and enqueue, and finally release the structural mutex. -/
def detachTrace (s : AddrSpace) (vaddr : Nat) : List LockEvent :=
  let idxs := parse_vaddr vaddr s.levels
  if idxs.length < 2 then [LockEvent.acquireStructural, LockEvent.releaseStructural]
  else
    let interior := idxs.dropLast.dropLast
    let tIdx := idxs.dropLast.getLastD 0
    match walkPath s.root interior with
    | none => [LockEvent.acquireStructural, LockEvent.releaseStructural]
    | some parent =>
      match parent.get_child tIdx with
      | none => [LockEvent.acquireStructural, LockEvent.releaseStructural]
      | some _ =>
        let tp := interior ++ [tIdx]
        [LockEvent.acquireStructural, LockEvent.acquirePage tp,
         LockEvent.clearChildLink interior tIdx, LockEvent.releasePage tp,
         LockEvent.acquireReclaimer, LockEvent.setStale tp, LockEvent.enqueuePage tp,
         LockEvent.releaseReclaimer, LockEvent.releaseStructural]

/-- Whether the descriptor lock of the page at `p` is held after the events
of `tr` have executed. -/
def pageHeldAfter (tr : List LockEvent) (p : List Nat) : Bool :=
  tr.foldl
    (fun h e =>
      match e with
      | LockEvent.acquirePage q => if q = p then true else h
      | LockEvent.releasePage q => if q = p then false else h
      | _ => h)
    false

/-- Whether the reclaimer mutex is held after the events of `tr`. -/
def reclaimerHeldAfter (tr : List LockEvent) : Bool :=
  tr.foldl
    (fun h e =>
      match e with
      | LockEvent.acquireReclaimer => true
      | LockEvent.releaseReclaimer => false
      | _ => h)
    false

/-- Whether the structural mutex is held after the events of `tr`. -/
def structuralHeldAfter (tr : List LockEvent) : Bool :=
  tr.foldl
    (fun h e =>
      match e with
      | LockEvent.acquireStructural => true
      | LockEvent.releaseStructural => false
      | _ => h)
    false

/-!  The invariant of claim C2 (amended form). -/

/-- The per-entry invariant that the system calls maintain: a present PTE has
status `Mapped`, `COW` or `PrivateAnon`, and an `Invalid` entry has no
present PTE. -/
def EntryInv (pte : PTE) (m : PTEMetadata) : Prop :=
  (pte.present = true →
    m.status = Status.Mapped ∨ m.status = Status.COW ∨ m.status = Status.PrivateAnon) ∧
  (m.status = Status.Invalid → pte.present = false)

/-- `EntryInv` for every entry of one page. -/
def PageEntriesInv (page : PageTablePage) : Prop :=
  ∀ i, EntryInv (page.get_pte i) (page.get_metadata i)

/-- `EntryInv` for every entry of every page reachable from `page`. -/
def PageInvAll (page : PageTablePage) : Prop :=
  ∀ path q, walkPath page path = some q → PageEntriesInv q

/-- The state-level invariant of claim C2. -/
def SysInv (sys : CortenMMSystem) : Prop :=
  PageInvAll sys.addr_space.root

/-!  Concrete states used by the witnesses and counterexamples. -/

/-- A fresh four-level address space. -/
def freshA : AddrSpace :=
  AddrSpace.fresh 4

/-- The operation sequence of claim C2's counterexample: `mmap` over an entry
that a page fault has already made `Mapped` with a present PTE. -/
def c2Seq : List SysOp :=
  [SysOp.mmap 0 4096 3, SysOp.pageFault 0 true, SysOp.mmap 0 4096 3]

/-- Claim C3's witness state: `mmap`, write fault (frame 0x1000), then
fork-COW, leaving the entry `COW` with global refcount 2. -/
def c3Sys : CortenMMSystem :=
  (((CortenMMSystem.fresh.do_syscall_mmap 0x30000 4096 3).1.handle_page_fault
      0x30000 true).1.do_fork_cow 0x30000 4096).1

/-- Claim C6's witness state: a fresh space with the leaf page for address 0
created, so that `remove_page_table 0` has a target to detach. -/
def c6State : AddrSpace :=
  ((AddrSpace.fresh 4).create_leaf_page 0).1

/-- Claim C9's witness leaf: a fresh leaf whose entry 0 is `COW` while its
PTE is cleared (the configuration claim C9 is about; it is not reachable
through the four system calls alone, which is why it is built directly). -/
def c9Leaf : PageTablePage :=
  (PageTablePage.fresh 0).mark_entry 0 Status.COW 7

/-- Claim C9's witness tree: the chain of interior pages leading to `c9Leaf`
at index path `[0, 0, 0]`. -/
def c9Root : PageTablePage :=
  (PageTablePage.fresh 3).set_child 0
    (some ((PageTablePage.fresh 2).set_child 0
      (some ((PageTablePage.fresh 1).set_child 0 (some c9Leaf)))))

/-- Claim C9's witness system. -/
def c9Sys : CortenMMSystem :=
  { addr_space := { root := c9Root, levels := 4, next_pfn := 0x1000, rcu_queue := [], clock := 0 },
    cow_refcounts := fun _ => none }

/-- Claim C5's counterexample input: a PTE with every field set. -/
def c5Pte : PTE :=
  { pfn := some 5, present := true, rw := true, user := true, accessed := true, dirty := true }

/-!  Intermediate states of claim C7's round trip (page-aligned address `a`
on a fresh system), spelled out so each system call can be characterised by
one equation. -/

/-- The index path `indices[:-1]` of address `a` with four levels. -/
def c7Path (a : Nat) : List Nat :=
  (parse_vaddr a 4).dropLast

/-- The leaf after `mmap(a, 4096, RW)`: a fresh leaf whose entry for `a` is
marked `PrivateAnon` with `soft_perm = 3`. -/
def c7Leaf1 (a : Nat) : PageTablePage :=
  (PageTablePage.fresh 0).mark_entry (pteIndex a) Status.PrivateAnon 3

/-- The leaf after the write fault: frame 0x1000 mapped writable. -/
def c7Leaf2 (a : Nat) : PageTablePage :=
  (c7Leaf1 a).map_entry (pteIndex a) 0x1000 true

/-- The tree created by the first lock acquisition (before marking). -/
def c7R1 (a : Nat) : PageTablePage :=
  (create_leaf_go (PageTablePage.fresh 3) (c7Path a) 2).1

/-- The address space after `mmap(a, 4096, RW)`. -/
def c7A1 (a : Nat) : AddrSpace :=
  { root := updateAtPath (c7R1 a) (c7Path a)
      (fun pg => pg.mark_entry (pteIndex a) Status.PrivateAnon 3),
    levels := 4, next_pfn := 0x1000, rcu_queue := [], clock := 0 }

/-- The system after `mmap(a, 4096, RW)`. -/
def c7S1 (a : Nat) : CortenMMSystem :=
  { addr_space := c7A1 a, cow_refcounts := fun _ => none }

/-- The address space after the write fault (frame 0x1000 allocated). -/
def c7A2 (a : Nat) : AddrSpace :=
  { root := updateAtPath (c7A1 a).root (c7Path a)
      (fun pg => pg.map_entry (pteIndex a) 0x1000 true),
    levels := 4, next_pfn := 0x1001, rcu_queue := [], clock := 0 }

/-- The system after the write fault. -/
def c7S2 (a : Nat) : CortenMMSystem :=
  { addr_space := c7A2 a, cow_refcounts := fun _ => none }

/-- The address space after `munmap(a, 4096)`. -/
def c7A3 (a : Nat) : AddrSpace :=
  { root := unmapStep [c7Path a] a (c7A2 a).root,
    levels := 4, next_pfn := 0x1001, rcu_queue := [], clock := 0 }

/-- The system after `munmap(a, 4096)`. -/
def c7S3 (a : Nat) : CortenMMSystem :=
  { addr_space := c7A3 a, cow_refcounts := fun _ => none }

/-!  Lemma library: reading the function-backed arrays, and how tree walks
interact with rebuilds. -/

@[simp] theorem updFn_same {α : Type} (f : Nat → α) (i : Nat) (v : α) : updFn f i v i = v := by
  simp [updFn]

theorem updFn_other {α : Type} (f : Nat → α) (i j : Nat) (v : α) (h : j ≠ i) :
    updFn f i v j = f j := by
  simp [updFn, h]

@[simp] theorem ptes_mk (p : Nat → PTE) (d : PageDescriptor) (c : Nat → Option PageTablePage)
    (l : Nat) : (PageTablePage.mk p d c l).ptes = p := rfl

@[simp] theorem descriptor_mk (p : Nat → PTE) (d : PageDescriptor)
    (c : Nat → Option PageTablePage) (l : Nat) : (PageTablePage.mk p d c l).descriptor = d := rfl

@[simp] theorem children_mk (p : Nat → PTE) (d : PageDescriptor)
    (c : Nat → Option PageTablePage) (l : Nat) : (PageTablePage.mk p d c l).children = c := rfl

@[simp] theorem level_mk (p : Nat → PTE) (d : PageDescriptor) (c : Nat → Option PageTablePage)
    (l : Nat) : (PageTablePage.mk p d c l).level = l := rfl

@[simp] theorem fresh_get_child (l i : Nat) : (PageTablePage.fresh l).get_child i = none := rfl

@[simp] theorem fresh_get_pte (l i : Nat) : (PageTablePage.fresh l).get_pte i = {} := rfl

@[simp] theorem fresh_get_metadata (l i : Nat) : (PageTablePage.fresh l).get_metadata i = {} := rfl

@[simp] theorem fresh_level (l : Nat) : (PageTablePage.fresh l).level = l := rfl

@[simp] theorem fresh_stale (l : Nat) : (PageTablePage.fresh l).descriptor.is_stale = false := rfl

@[simp] theorem set_child_get_pte (p : PageTablePage) (i : Nat) (c : Option PageTablePage)
    (j : Nat) : (p.set_child i c).get_pte j = p.get_pte j := rfl

@[simp] theorem set_child_get_metadata (p : PageTablePage) (i : Nat) (c : Option PageTablePage)
    (j : Nat) : (p.set_child i c).get_metadata j = p.get_metadata j := rfl

@[simp] theorem set_child_level (p : PageTablePage) (i : Nat) (c : Option PageTablePage) :
    (p.set_child i c).level = p.level := rfl

@[simp] theorem set_child_descriptor (p : PageTablePage) (i : Nat) (c : Option PageTablePage) :
    (p.set_child i c).descriptor = p.descriptor := rfl

theorem set_child_get_child (p : PageTablePage) (i : Nat) (c : Option PageTablePage) (j : Nat) :
    (p.set_child i c).get_child j = if j = i then c else p.get_child j := by
  simp [PageTablePage.set_child, PageTablePage.get_child, updFn]

@[simp] theorem walkPath_nil (p : PageTablePage) : walkPath p [] = some p := rfl

theorem walkPath_cons (p : PageTablePage) (i : Nat) (rest : List Nat) :
    walkPath p (i :: rest) =
      match p.get_child i with
      | none => none
      | some c => walkPath c rest := rfl

theorem walkPath_set_child_cons (p : PageTablePage) (i : Nat) (c : PageTablePage)
    (j : Nat) (rest : List Nat) :
    walkPath (p.set_child i (some c)) (j :: rest) =
      if j = i then walkPath c rest else walkPath p (j :: rest) := by
  by_cases h : j = i
  · simp [walkPath_cons, set_child_get_child, h]
  · simp [walkPath_cons, set_child_get_child, h]

/-- Rebuilding the page at the end of an existing path and walking back to it
yields the rebuilt page. -/
theorem walkPath_updateAtPath (path : List Nat) :
    ∀ (root q : PageTablePage) (f : PageTablePage → PageTablePage),
      walkPath root path = some q →
      walkPath (updateAtPath root path f) path = some (f q) := by
  induction path with
  | nil =>
    intro root q f h
    simp [walkPath] at h
    simp [updateAtPath, h]
  | cons i rest ih =>
    intro root q f h
    rw [walkPath_cons] at h
    cases hc : root.get_child i with
    | none => rw [hc] at h; exact absurd h (by simp)
    | some c =>
      rw [hc] at h
      simp only [updateAtPath, hc]
      rw [walkPath_set_child_cons]
      simp [ih c q f h]

/-- Walking the path just created by `create_leaf_go` reaches the page it
returned. -/
theorem walkPath_create_leaf_go (path : List Nat) :
    ∀ (page : PageTablePage) (lvl : Nat),
      walkPath (create_leaf_go page path lvl).1 path = some (create_leaf_go page path lvl).2 := by
  induction path with
  | nil => intro page lvl; simp [create_leaf_go]
  | cons i rest ih =>
    intro page lvl
    simp only [create_leaf_go]
    rw [walkPath_set_child_cons]
    simp [ih]

/-!  How the entry transforms read back. -/

@[simp] theorem mark_entry_level (page : PageTablePage) (idx : Nat) (st : Status) (pm : Nat) :
    (page.mark_entry idx st pm).level = page.level := rfl

@[simp] theorem mark_entry_children (page : PageTablePage) (idx : Nat) (st : Status) (pm : Nat) :
    (page.mark_entry idx st pm).children = page.children := rfl

@[simp] theorem mark_entry_stale (page : PageTablePage) (idx : Nat) (st : Status) (pm : Nat) :
    (page.mark_entry idx st pm).descriptor.is_stale = page.descriptor.is_stale := rfl

@[simp] theorem mark_entry_get_pte (page : PageTablePage) (idx : Nat) (st : Status) (pm : Nat)
    (j : Nat) : (page.mark_entry idx st pm).get_pte j = page.get_pte j := rfl

theorem mark_entry_get_metadata (page : PageTablePage) (idx : Nat) (st : Status) (pm : Nat)
    (j : Nat) :
    (page.mark_entry idx st pm).get_metadata j =
      if j = idx then { page.get_metadata idx with status := st, soft_perm := pm }
      else page.get_metadata j := by
  simp [PageTablePage.mark_entry, PageTablePage.get_metadata, PageTablePage.withDescriptor, updFn]

@[simp] theorem map_entry_level (page : PageTablePage) (idx pfn : Nat) (w : Bool) :
    (page.map_entry idx pfn w).level = page.level := rfl

@[simp] theorem map_entry_children (page : PageTablePage) (idx pfn : Nat) (w : Bool) :
    (page.map_entry idx pfn w).children = page.children := rfl

@[simp] theorem map_entry_stale (page : PageTablePage) (idx pfn : Nat) (w : Bool) :
    (page.map_entry idx pfn w).descriptor.is_stale = page.descriptor.is_stale := rfl

theorem map_entry_get_pte (page : PageTablePage) (idx pfn : Nat) (w : Bool) (j : Nat) :
    (page.map_entry idx pfn w).get_pte j =
      if j = idx then
        { page.get_pte idx with pfn := some pfn, present := true, rw := w, user := true }
      else page.get_pte j := by
  simp [PageTablePage.map_entry, PageTablePage.get_pte, PageTablePage.withPtes,
    PageTablePage.withDescriptor, updFn]

theorem map_entry_get_metadata (page : PageTablePage) (idx pfn : Nat) (w : Bool) (j : Nat) :
    (page.map_entry idx pfn w).get_metadata j =
      if j = idx then
        { page.get_metadata idx with
          status := Status.Mapped
          soft_perm := if w then 0b111 else 0b101 }
      else page.get_metadata j := by
  simp [PageTablePage.map_entry, PageTablePage.get_metadata, PageTablePage.withPtes,
    PageTablePage.withDescriptor, updFn]

@[simp] theorem clear_entry_level (page : PageTablePage) (idx : Nat) :
    (page.clear_entry idx).level = page.level := rfl

@[simp] theorem clear_entry_children (page : PageTablePage) (idx : Nat) :
    (page.clear_entry idx).children = page.children := rfl

@[simp] theorem clear_entry_stale (page : PageTablePage) (idx : Nat) :
    (page.clear_entry idx).descriptor.is_stale = page.descriptor.is_stale := rfl

theorem clear_entry_get_pte (page : PageTablePage) (idx j : Nat) :
    (page.clear_entry idx).get_pte j =
      if j = idx then (page.get_pte idx).clear else page.get_pte j := by
  simp [PageTablePage.clear_entry, PageTablePage.get_pte, PageTablePage.withPtes,
    PageTablePage.withDescriptor, updFn]

theorem clear_entry_get_metadata (page : PageTablePage) (idx j : Nat) :
    (page.clear_entry idx).get_metadata j =
      if j = idx then
        { page.get_metadata idx with status := Status.Invalid, soft_perm := 0, refcount := 0 }
      else page.get_metadata j := by
  simp [PageTablePage.clear_entry, PageTablePage.get_metadata, PageTablePage.withPtes,
    PageTablePage.withDescriptor, updFn]

@[simp] theorem cow_flip_entry_level (page : PageTablePage) (idx : Nat) :
    (page.cow_flip_entry idx).level = page.level := rfl

@[simp] theorem cow_flip_entry_children (page : PageTablePage) (idx : Nat) :
    (page.cow_flip_entry idx).children = page.children := rfl

theorem cow_flip_entry_get_pte (page : PageTablePage) (idx j : Nat) :
    (page.cow_flip_entry idx).get_pte j =
      if j = idx then { page.get_pte idx with rw := true } else page.get_pte j := by
  simp [PageTablePage.cow_flip_entry, PageTablePage.get_pte, PageTablePage.withPtes,
    PageTablePage.withDescriptor, updFn]

theorem cow_flip_entry_get_metadata (page : PageTablePage) (idx j : Nat) :
    (page.cow_flip_entry idx).get_metadata j =
      if j = idx then
        { page.get_metadata idx with status := Status.PrivateAnon, refcount := 1 }
      else page.get_metadata j := by
  simp [PageTablePage.cow_flip_entry, PageTablePage.get_metadata, PageTablePage.withPtes,
    PageTablePage.withDescriptor, updFn]

@[simp] theorem cow_priv_entry_level (page : PageTablePage) (idx : Nat) :
    (page.cow_priv_entry idx).level = page.level := rfl

@[simp] theorem cow_priv_entry_children (page : PageTablePage) (idx : Nat) :
    (page.cow_priv_entry idx).children = page.children := rfl

@[simp] theorem cow_priv_entry_get_pte (page : PageTablePage) (idx j : Nat) :
    (page.cow_priv_entry idx).get_pte j = page.get_pte j := rfl

theorem cow_priv_entry_get_metadata (page : PageTablePage) (idx j : Nat) :
    (page.cow_priv_entry idx).get_metadata j =
      if j = idx then
        { page.get_metadata idx with status := Status.PrivateAnon, refcount := 1 }
      else page.get_metadata j := by
  simp [PageTablePage.cow_priv_entry, PageTablePage.get_metadata,
    PageTablePage.withDescriptor, updFn]

@[simp] theorem fork_entry_level (page : PageTablePage) (idx g : Nat) :
    (page.fork_entry idx g).level = page.level := rfl

@[simp] theorem fork_entry_children (page : PageTablePage) (idx g : Nat) :
    (page.fork_entry idx g).children = page.children := rfl

theorem fork_entry_get_pte (page : PageTablePage) (idx g j : Nat) :
    (page.fork_entry idx g).get_pte j =
      if j = idx then { page.get_pte idx with rw := false } else page.get_pte j := by
  simp [PageTablePage.fork_entry, PageTablePage.get_pte, PageTablePage.withPtes,
    PageTablePage.withDescriptor, updFn]

theorem fork_entry_get_metadata (page : PageTablePage) (idx g j : Nat) :
    (page.fork_entry idx g).get_metadata j =
      if j = idx then
        { page.get_metadata idx with status := Status.COW, refcount := g }
      else page.get_metadata j := by
  simp [PageTablePage.fork_entry, PageTablePage.get_metadata, PageTablePage.withPtes,
    PageTablePage.withDescriptor, updFn]

/-!  Preservation of the claim C2 invariant through every tree transformation
the four system calls perform. -/

theorem entryInv_default : EntryInv {} {} := by
  constructor
  · intro h; cases h
  · intro _; rfl

theorem pageEntriesInv_fresh (l : Nat) : PageEntriesInv (PageTablePage.fresh l) := by
  intro i
  simpa using entryInv_default

theorem pageInvAll_fresh (l : Nat) : PageInvAll (PageTablePage.fresh l) := by
  intro path q h
  cases path with
  | nil => simp at h; subst h; exact pageEntriesInv_fresh l
  | cons i rest => simp [walkPath_cons] at h

/-- Entries are untouched by `set_child`. -/
theorem pageEntriesInv_set_child (page : PageTablePage) (i : Nat) (c : Option PageTablePage)
    (h : PageEntriesInv page) : PageEntriesInv (page.set_child i c) := by
  intro j
  simpa using h j

/-- A subtree of a `PageInvAll` page is itself `PageInvAll`. -/
theorem pageInvAll_child (page : PageTablePage) (i : Nat) (c : PageTablePage)
    (hc : page.get_child i = some c) (h : PageInvAll page) : PageInvAll c := by
  intro path q hw
  exact h (i :: path) q (by rw [walkPath_cons, hc]; exact hw)

theorem pageInvAll_set_child (page : PageTablePage) (i : Nat) (c : PageTablePage)
    (hp : PageInvAll page) (hc : PageInvAll c) : PageInvAll (page.set_child i (some c)) := by
  intro path q hw
  cases path with
  | nil =>
    simp at hw
    subst hw
    exact pageEntriesInv_set_child page i (some c) (hp [] page (by simp))
  | cons j rest =>
    rw [walkPath_set_child_cons] at hw
    by_cases hji : j = i
    · rw [if_pos hji] at hw
      exact hc rest q hw
    · rw [if_neg hji] at hw
      exact hp (j :: rest) q hw

/-- `create_leaf_go` preserves the reachable-entries invariant: it only adds
fresh (all-Invalid, non-present) pages. -/
theorem pageInvAll_create_leaf_go (path : List Nat) :
    ∀ (page : PageTablePage) (lvl : Nat),
      PageInvAll page → PageInvAll (create_leaf_go page path lvl).1 := by
  induction path with
  | nil => intro page lvl h; simpa [create_leaf_go] using h
  | cons i rest ih =>
    intro page lvl h
    simp only [create_leaf_go]
    refine pageInvAll_set_child page i _ h (ih _ _ ?_)
    cases hc : page.get_child i with
    | none => simpa [hc] using pageInvAll_fresh lvl
    | some c => simpa [hc] using pageInvAll_child page i c hc h

/-- `updateAtPath` preserves the reachable-entries invariant whenever the
transform preserves a page's entries and does not touch its children. -/
theorem pageInvAll_updateAtPath (path : List Nat) :
    ∀ (page : PageTablePage) (f : PageTablePage → PageTablePage),
      (∀ pg, PageEntriesInv pg → PageEntriesInv (f pg)) →
      (∀ pg, (f pg).children = pg.children) →
      PageInvAll page → PageInvAll (updateAtPath page path f) := by
  induction path with
  | nil =>
    intro page f hf hch h
    intro path q hw
    cases path with
    | nil =>
      simp at hw
      subst hw
      exact hf page (h [] page (by simp))
    | cons j rest =>
      simp only [updateAtPath] at hw
      rw [walkPath_cons] at hw
      have : (f page).get_child j = page.get_child j := by
        simp [PageTablePage.get_child, hch page]
      rw [this] at hw
      cases hc : page.get_child j with
      | none => rw [hc] at hw; exact absurd hw (by simp)
      | some c =>
        rw [hc] at hw
        exact pageInvAll_child page j c hc h rest q hw
  | cons i rest ih =>
    intro page f hf hch h
    simp only [updateAtPath]
    cases hc : page.get_child i with
    | none => exact h
    | some c =>
      exact pageInvAll_set_child page i _ h (ih c f hf hch (pageInvAll_child page i c hc h))

theorem pageEntriesInv_mark_entry (page : PageTablePage) (idx : Nat) (st : Status) (pm : Nat)
    (hst : st = Status.Mapped ∨ st = Status.COW ∨ st = Status.PrivateAnon)
    (h : PageEntriesInv page) : PageEntriesInv (page.mark_entry idx st pm) := by
  intro j
  rw [EntryInv, mark_entry_get_pte, mark_entry_get_metadata]
  by_cases hj : j = idx
  · rw [if_pos hj]
    constructor
    · intro _; simpa using hst
    · intro hbad
      simp at hbad
      rcases hst with h1 | h1 | h1 <;> simp [h1] at hbad
  · rw [if_neg hj]; exact h j

theorem pageEntriesInv_map_entry (page : PageTablePage) (idx pfn : Nat) (w : Bool)
    (h : PageEntriesInv page) : PageEntriesInv (page.map_entry idx pfn w) := by
  intro j
  rw [EntryInv, map_entry_get_pte, map_entry_get_metadata]
  by_cases hj : j = idx
  · rw [if_pos hj, if_pos hj]
    constructor
    · intro _; simp
    · intro hbad; simp at hbad
  · rw [if_neg hj, if_neg hj]; exact h j

theorem pageEntriesInv_clear_entry (page : PageTablePage) (idx : Nat)
    (h : PageEntriesInv page) : PageEntriesInv (page.clear_entry idx) := by
  intro j
  rw [EntryInv, clear_entry_get_pte, clear_entry_get_metadata]
  by_cases hj : j = idx
  · rw [if_pos hj, if_pos hj]
    constructor
    · intro hbad; simp [PTE.clear] at hbad
    · intro _; simp [PTE.clear]
  · rw [if_neg hj, if_neg hj]; exact h j

theorem pageEntriesInv_cow_flip_entry (page : PageTablePage) (idx : Nat)
    (h : PageEntriesInv page) : PageEntriesInv (page.cow_flip_entry idx) := by
  intro j
  rw [EntryInv, cow_flip_entry_get_pte, cow_flip_entry_get_metadata]
  by_cases hj : j = idx
  · rw [if_pos hj, if_pos hj]
    constructor
    · intro _; simp
    · intro hbad; simp at hbad
  · rw [if_neg hj, if_neg hj]; exact h j

theorem pageEntriesInv_cow_priv_entry (page : PageTablePage) (idx : Nat)
    (h : PageEntriesInv page) : PageEntriesInv (page.cow_priv_entry idx) := by
  intro j
  rw [EntryInv, cow_priv_entry_get_pte, cow_priv_entry_get_metadata]
  by_cases hj : j = idx
  · rw [if_pos hj]
    constructor
    · intro _; simp
    · intro hbad; simp at hbad
  · rw [if_neg hj]; exact h j

theorem pageEntriesInv_fork_entry (page : PageTablePage) (idx g : Nat)
    (h : PageEntriesInv page) : PageEntriesInv (page.fork_entry idx g) := by
  intro j
  rw [EntryInv, fork_entry_get_pte, fork_entry_get_metadata]
  by_cases hj : j = idx
  · rw [if_pos hj, if_pos hj]
    constructor
    · intro _; simp
    · intro hbad; simp at hbad
  · rw [if_neg hj, if_neg hj]; exact h j

/-!  Preservation through the cursor loops and the system calls. -/

theorem pageInvAll_markAll (paths : List (List Nat)) (vaddr : Nat) (pm : Nat)
    (st : Status) (hst : st = Status.Mapped ∨ st = Status.COW ∨ st = Status.PrivateAnon) :
    ∀ root, PageInvAll root → PageInvAll (markAll paths vaddr st pm root) := by
  induction paths with
  | nil => intro root h; simpa [markAll] using h
  | cons p rest ih =>
    intro root h
    rw [markAll, List.foldl_cons]
    have hstep : PageInvAll
        (match walkPath root p with
          | some page =>
            if page.is_leaf then
              updateAtPath root p (fun pg => pg.mark_entry (pteIndex vaddr) st pm)
            else root
          | none => root) := by
      cases hw : walkPath root p with
      | none => exact h
      | some page =>
        by_cases hl : page.is_leaf
        · simp only [hl, if_true]
          exact pageInvAll_updateAtPath p root _
            (fun pg hpg => pageEntriesInv_mark_entry pg _ st pm hst hpg)
            (fun pg => by simp) h
        · simp only [hl]; simpa using h
    have := ih _ hstep
    rw [markAll] at this
    exact this

theorem pageInvAll_markLoop (paths : List (List Nat)) (pm : Nat) (st : Status)
    (hst : st = Status.Mapped ∨ st = Status.COW ∨ st = Status.PrivateAnon) :
    ∀ (n vaddr : Nat) (root : PageTablePage),
      PageInvAll root → PageInvAll (markLoop paths st pm vaddr n root) := by
  intro n
  induction n with
  | zero => intro vaddr root h; simpa [markLoop] using h
  | succ k ih =>
    intro vaddr root h
    rw [markLoop]
    exact ih _ _ (pageInvAll_markAll paths vaddr pm st hst root h)

theorem pageInvAll_unmapStep (paths : List (List Nat)) (vaddr : Nat) (root : PageTablePage)
    (h : PageInvAll root) : PageInvAll (unmapStep paths vaddr root) := by
  rw [unmapStep]
  cases hf : findLeafPath root paths with
  | none => exact h
  | some p =>
    exact pageInvAll_updateAtPath p root _
      (fun pg hpg => by
        by_cases hc : (pg.get_metadata (pteIndex vaddr)).status ≠ Status.Invalid
        · simpa [hc] using pageEntriesInv_clear_entry pg _ hpg
        · simpa [hc] using hpg)
      (fun pg => by by_cases hc : (pg.get_metadata (pteIndex vaddr)).status ≠ Status.Invalid <;>
        simp [hc])
      h

theorem pageInvAll_unmapLoop (paths : List (List Nat)) :
    ∀ (n vaddr : Nat) (root : PageTablePage),
      PageInvAll root → PageInvAll (unmapLoop paths vaddr n root) := by
  intro n
  induction n with
  | zero => intro vaddr root h; simpa [unmapLoop] using h
  | succ k ih =>
    intro vaddr root h
    rw [unmapLoop]
    exact ih _ _ (pageInvAll_unmapStep paths vaddr root h)

theorem pageInvAll_forkStep (c : RCursor) (vaddr : Nat)
    (st : PageTablePage × (Nat → Option Nat)) (h : PageInvAll st.1) :
    PageInvAll (forkStep c vaddr st).1 := by
  rw [forkStep]
  cases hg : c.get_pte_and_metadata st.1 vaddr with
  | none => exact h
  | some pm =>
    by_cases hv : pm.1.is_valid && (pm.2.status == Status.Mapped)
    · simp only [hv, if_true]
      cases hf : findLeafPath st.1 c.locked_paths with
      | none => exact h
      | some p =>
        exact pageInvAll_updateAtPath p st.1 _
          (fun pg hpg => pageEntriesInv_fork_entry pg _ _ hpg)
          (fun pg => by simp) h
    · simp only [hv]; simpa using h

theorem pageInvAll_forkLoop (c : RCursor) :
    ∀ (n vaddr : Nat) (st : PageTablePage × (Nat → Option Nat)),
      PageInvAll st.1 → PageInvAll (forkLoop c vaddr n st).1 := by
  intro n
  induction n with
  | zero => intro vaddr st h; simpa [forkLoop] using h
  | succ k ih =>
    intro vaddr st h
    rw [forkLoop]
    exact ih _ _ (pageInvAll_forkStep c vaddr st h)

@[simp] theorem post_scope_root (s : AddrSpace) : (AddrSpace.post_scope s).root = s.root := rfl

@[simp] theorem post_scope_levels (s : AddrSpace) :
    (AddrSpace.post_scope s).levels = s.levels := rfl

@[simp] theorem post_scope_next_pfn (s : AddrSpace) :
    (AddrSpace.post_scope s).next_pfn = s.next_pfn := rfl

theorem pageInvAll_lockAttempt (s : AddrSpace) (a e : Nat) (deep : Bool)
    (h : PageInvAll s.root) : PageInvAll (s.lockAttempt a e deep).1.root := by
  rw [AddrSpace.lockAttempt]
  cases hc : s.ensure_leaf_page a with
  | some page =>
    by_cases hs : page.descriptor.is_stale
    · simp only [hc, hs]; simpa using h
    · simp only [hc, hs]
      by_cases hd : deep
      · simp only [hd]
        cases dfsGo (page.level + 1) page <;> simpa using h
      · simp only [hd]; simpa using h
  | none =>
    have hcr : PageInvAll (s.create_leaf_page a).1.root := by
      rw [AddrSpace.create_leaf_page]
      exact pageInvAll_create_leaf_go _ s.root _ h
    by_cases hs : (s.create_leaf_page a).2.descriptor.is_stale
    · simp only [hc, hs]; simpa using hcr
    · simp only [hc, hs]
      by_cases hd : deep
      · simp only [hd]
        cases dfsGo ((s.create_leaf_page a).2.level + 1) (s.create_leaf_page a).2 <;>
          simpa using hcr
      · simp only [hd]; simpa using hcr

theorem pageInvAll_lockLoop (a e : Nat) (deep : Bool) :
    ∀ (n : Nat) (s : AddrSpace), PageInvAll s.root → PageInvAll (lockLoop a e deep n s).1.root := by
  intro n
  induction n with
  | zero => intro s h; simpa [lockLoop] using h
  | succ k ih =>
    intro s h
    rw [lockLoop]
    cases hA : s.lockAttempt a e deep with
    | mk s1 oc =>
      have h1 : PageInvAll s1.root := by
        have := pageInvAll_lockAttempt s a e deep h
        rw [hA] at this
        exact this
      cases oc with
      | some c => exact h1
      | none => exact ih s1 h1

theorem pageInvAll_lock (s : AddrSpace) (v1 v2 : Nat) (deep : Bool)
    (h : PageInvAll s.root) : PageInvAll (s.lock v1 v2 deep).1.root :=
  pageInvAll_lockLoop _ _ deep 10 s h

theorem sysInv_fresh : SysInv CortenMMSystem.fresh :=
  pageInvAll_fresh 3

theorem sysInv_mmap (sys : CortenMMSystem) (v l p : Nat) (h : SysInv sys) :
    SysInv (sys.do_syscall_mmap v l p).1 := by
  rw [SysInv, CortenMMSystem.do_syscall_mmap]
  cases hL : sys.addr_space.lock (alignDown v) (alignUp (alignDown v + l)) false with
  | mk sp oc =>
    have hsp : PageInvAll sp.root := by
      have := pageInvAll_lock sys.addr_space (alignDown v) (alignUp (alignDown v + l)) false h
      rw [hL] at this
      exact this
    cases oc with
    | none => exact hsp
    | some c =>
      simp only [post_scope_root]
      exact pageInvAll_markLoop c.locked_paths p Status.PrivateAnon (by simp) _ _ _ hsp

theorem sysInv_munmap (sys : CortenMMSystem) (v l : Nat) (h : SysInv sys) :
    SysInv (sys.do_syscall_munmap v l).1 := by
  rw [SysInv, CortenMMSystem.do_syscall_munmap]
  cases hL : sys.addr_space.lock (alignDown v) (alignUp (alignDown v + l)) false with
  | mk sp oc =>
    have hsp : PageInvAll sp.root := by
      have := pageInvAll_lock sys.addr_space (alignDown v) (alignUp (alignDown v + l)) false h
      rw [hL] at this
      exact this
    cases oc with
    | none => exact hsp
    | some c =>
      simp only [post_scope_root]
      exact pageInvAll_unmapLoop c.locked_paths _ _ _ hsp

theorem pageInvAll_cow_write (sys : CortenMMSystem) (sp : AddrSpace) (c : RCursor) (v : Nat)
    (h : PageInvAll sp.root) : PageInvAll (sys.handle_cow_write sp c v).1.root := by
  rw [CortenMMSystem.handle_cow_write]
  cases hg : c.get_pte_and_metadata sp.root v with
  | none => exact h
  | some pm =>
    by_cases hv : pm.1.is_valid
    · simp only [hv, if_true]
      by_cases hr : 1 < (sys.cow_refcounts (pm.1.pfn.getD 0)).getD 1
      · simp only [hr, if_true]
        have hall : PageInvAll (sp.allocate_pfn.1.root) := by
          simpa [AddrSpace.allocate_pfn] using h
        cases hM : c.mapOp sp.allocate_pfn.1.root v sp.allocate_pfn.2 true with
        | none => exact hall
        | some root1 =>
          have h1 : PageInvAll root1 := by
            rw [RCursor.mapOp] at hM
            by_cases hb : c.vaddr_start ≤ v ∧ v < c.vaddr_end
            · rw [if_pos hb] at hM
              cases hf : findLeafPath sp.allocate_pfn.1.root c.locked_paths with
              | none => rw [hf] at hM; exact absurd hM (by simp)
              | some p =>
                rw [hf] at hM
                simp only [Option.some.injEq] at hM
                subst hM
                exact pageInvAll_updateAtPath p _ _
                  (fun pg hpg => pageEntriesInv_map_entry pg _ _ _ hpg)
                  (fun pg => by simp) hall
            · rw [if_neg hb] at hM; exact absurd hM (by simp)
          cases hf2 : findLeafPath root1 c.locked_paths with
          | none => simpa [hf2] using h1
          | some p =>
            simp only [hf2]
            exact pageInvAll_updateAtPath p root1 _
              (fun pg hpg => pageEntriesInv_cow_priv_entry pg _ hpg)
              (fun pg => by simp) h1
      · simp only [hr]
        cases hf : findLeafPath sp.root c.locked_paths with
        | none => simpa [hf] using h
        | some p =>
          simp only [hf]
          exact pageInvAll_updateAtPath p sp.root _
            (fun pg hpg => pageEntriesInv_cow_flip_entry pg _ hpg)
            (fun pg => by simp) h
    · simp only [hv]; simpa using h

/-- `cursor.map` only ever rebuilds the tree along one path with `map_entry`,
so it preserves the reachable-entries invariant. -/
theorem pageInvAll_mapOp (c : RCursor) (root : PageTablePage) (v pfn : Nat) (w : Bool)
    (root1 : PageTablePage) (hM : c.mapOp root v pfn w = some root1)
    (h : PageInvAll root) : PageInvAll root1 := by
  rw [RCursor.mapOp] at hM
  by_cases hb : c.vaddr_start ≤ v ∧ v < c.vaddr_end
  · rw [if_pos hb] at hM
    cases hf : findLeafPath root c.locked_paths with
    | none => rw [hf] at hM; exact absurd hM (by simp)
    | some p =>
      rw [hf] at hM
      simp only [Option.some.injEq] at hM
      subst hM
      exact pageInvAll_updateAtPath p _ _
        (fun pg hpg => pageEntriesInv_map_entry pg _ _ _ hpg)
        (fun pg => by simp) h
  · rw [if_neg hb] at hM; exact absurd hM (by simp)

theorem sysInv_fault (sys : CortenMMSystem) (v : Nat) (w : Bool) (h : SysInv sys) :
    SysInv (sys.handle_page_fault v w).1 := by
  have hlock : ∀ (sp : AddrSpace) (oc : Option RCursor),
      sys.addr_space.lock (alignDown v) (alignDown v + 0x1000) false = (sp, oc) →
      PageInvAll sp.root := by
    intro sp oc hL
    have := pageInvAll_lock sys.addr_space (alignDown v) (alignDown v + 0x1000) false h
    rw [hL] at this
    exact this
  rw [SysInv, CortenMMSystem.handle_page_fault]
  split
  next sp hL => exact hlock sp none hL
  next sp c hL =>
    have hsp := hlock sp (some c) hL
    have hall : PageInvAll (sp.allocate_pfn.1.root) := by
      simpa [AddrSpace.allocate_pfn] using hsp
    split
    next hq =>
      simp only
      split
      next root1 hM =>
        simpa using pageInvAll_mapOp c _ v _ true root1 hM hall
      next hM => simpa using hall
    next hq =>
      by_cases hw : w
      · simp only [hw, if_true]
        simpa using pageInvAll_cow_write sys sp c v hsp
      · simp only [hw]
        cases c.get_pte_and_metadata sp.root v <;> simpa using hsp
    next hq =>
      cases c.get_pte_and_metadata sp.root v <;> simpa using hsp
    next x hq => simpa using hsp

theorem sysInv_fork (sys : CortenMMSystem) (v l : Nat) (h : SysInv sys) :
    SysInv (sys.do_fork_cow v l).1 := by
  rw [SysInv, CortenMMSystem.do_fork_cow]
  cases hL : sys.addr_space.lock (alignDown v) (alignUp (alignDown v + l)) false with
  | mk sp oc =>
    have hsp : PageInvAll sp.root := by
      have := pageInvAll_lock sys.addr_space (alignDown v) (alignUp (alignDown v + l)) false h
      rw [hL] at this
      exact this
    cases oc with
    | none => exact hsp
    | some c =>
      simp only [post_scope_root]
      exact pageInvAll_forkLoop c _ _ (sp.root, sys.cow_refcounts) hsp

theorem sysInv_applyOp (sys : CortenMMSystem) (op : SysOp) (h : SysInv sys) :
    SysInv (applyOp sys op) := by
  cases op with
  | mmap v l p => exact sysInv_mmap sys v l p h
  | munmap v l => exact sysInv_munmap sys v l h
  | pageFault v w => exact sysInv_fault sys v w h
  | forkCow v l => exact sysInv_fork sys v l h

theorem sysInv_runOps (ops : List SysOp) : SysInv (runOps ops) := by
  rw [runOps]
  have : ∀ (l : List SysOp) (sys : CortenMMSystem), SysInv sys → SysInv (l.foldl applyOp sys) := by
    intro l
    induction l with
    | nil => intro sys h; simpa using h
    | cons op rest ih =>
      intro sys h
      rw [List.foldl_cons]
      exact ih _ (sysInv_applyOp sys op h)
  exact this _ _ sysInv_fresh

/-!  Claim C2. -/

/-- Claim C2, counterexample: starting from a fresh system, the sequence
`mmap(0, 4096, RW·X)`, `handle_page_fault(0, write)`, `mmap(0, 4096, RW·X)`
leaves the entry for address 0 with `metadata.status = PrivateAnon` while
`PTE.present = true` — `mmap`'s `mark` rewrites the status without touching
the PTE, so the claimed invariant (`present ⇒ status ∈ {Mapped, COW}` and
`PrivateAnon ⇒ ¬present`) is false after this sequence of public
operations. -/
theorem claimC2_counterexample :
    (runOps c2Seq).addr_space.statusAt 0 = Status.PrivateAnon ∧
      ((runOps c2Seq).addr_space.pteAt 0).map PTE.present = some true :=
  ⟨rfl, rfl⟩

/-- Claim C2, amended: after any sequence of the public operations (mmap,
munmap, handle_page_fault, fork_cow — which invoke the cursor operations
map/mark/unmap_range as `syscalls.py` does) starting from a fresh system,
every entry of every reachable page satisfies: if `PTE.present` then
`metadata.status ∈ {Mapped, COW, PrivateAnon}`, and if `metadata.status =
Invalid` then `PTE.present` is false.  The claimed stronger form fails
because `mmap` over a present `Mapped` entry (and the COW write resolve)
leaves `status = PrivateAnon` with a present PTE. -/
theorem claimC2_amended (ops : List SysOp) (path : List Nat) (q : PageTablePage) (i : Nat)
    (hw : walkPath (runOps ops).addr_space.root path = some q) :
    ((q.get_pte i).present = true →
      (q.get_metadata i).status = Status.Mapped ∨ (q.get_metadata i).status = Status.COW ∨
        (q.get_metadata i).status = Status.PrivateAnon) ∧
    ((q.get_metadata i).status = Status.Invalid → (q.get_pte i).present = false) :=
  sysInv_runOps ops path q hw i

/-- Witness for `claimC2_amended`: the root of the state reached by the
counterexample sequence, at entry 0. -/
theorem claimC2_amended_witness :
    walkPath (runOps c2Seq).addr_space.root [] = some (runOps c2Seq).addr_space.root ∧
    ((((runOps c2Seq).addr_space.root.get_pte 0).present = true →
      ((runOps c2Seq).addr_space.root.get_metadata 0).status = Status.Mapped ∨
        ((runOps c2Seq).addr_space.root.get_metadata 0).status = Status.COW ∨
        ((runOps c2Seq).addr_space.root.get_metadata 0).status = Status.PrivateAnon) ∧
      (((runOps c2Seq).addr_space.root.get_metadata 0).status = Status.Invalid →
        ((runOps c2Seq).addr_space.root.get_pte 0).present = false)) :=
  ⟨rfl, claimC2_amended c2Seq [] (runOps c2Seq).addr_space.root 0 rfl⟩

/-!  Claim C5. -/

/-- Claim C5, counterexample: `clear()` does not zero all fields — for a PTE
whose `user` bit is set, `clear` leaves `user = true`, so the claimed
conjunction (frame unset and the present, rw, user, accessed, dirty bits all
false) fails at this input. -/
theorem claimC5_counterexample :
    ¬(c5Pte.clear.pfn = none ∧ c5Pte.clear.present = false ∧ c5Pte.clear.rw = false ∧
      c5Pte.clear.user = false ∧ c5Pte.clear.accessed = false ∧ c5Pte.clear.dirty = false) := by
  decide

/-- Claim C5, amended: for every PTE, `clear()` unsets the frame number and
the `present`, `rw`, `accessed` and `dirty` bits, but leaves the `user` bit
unchanged (the Python method never assigns `self.user`). -/
theorem claimC5_amended (p : PTE) :
    p.clear = { pfn := none, present := false, rw := false, user := p.user,
                accessed := false, dirty := false } := by
  rfl

/-!  Claim C8: the address-arithmetic round trip. -/

theorem and_511_eq_mod (x : Nat) : x &&& 511 = x % 512 := by
  have h := Nat.and_pow_two_sub_one_eq_mod x 9
  norm_num at h
  exact h

theorem shiftLeft_or_eq_add (a b k : Nat) (hb : b < 2 ^ k) :
    (a <<< k) ||| b = a * 2 ^ k + b := by
  have h := Nat.mul_add_lt_is_or hb a
  rw [Nat.shiftLeft_eq, Nat.mul_comm a (2 ^ k), ← h]

/-- Claim C8: for every virtual address below `512^4 * 4096` (with L = 4
levels), `make_vaddr (parse_vaddr vaddr 4) (vaddr % 4096) = vaddr`:
`parse_vaddr` shifts off the low 12 bits and extracts four 9-bit groups,
highest first, and `make_vaddr` is its inverse for offsets below 4096. -/
theorem claimC8_roundtrip (v : Nat) (h : v < 512 ^ 4 * 4096) :
    make_vaddr (parse_vaddr v 4) (v % 4096) = v := by
  have hoff : v % 4096 < 4096 := Nat.mod_lt _ (by norm_num)
  have hp : parse_vaddr v 4 =
      [(((v >>> 12) >>> 9) >>> 9) >>> 9 &&& 511, ((v >>> 12) >>> 9) >>> 9 &&& 511,
        (v >>> 12) >>> 9 &&& 511, (v >>> 12) &&& 511] := rfl
  rw [hp, make_vaddr]
  simp only [List.foldl_cons, List.foldl_nil]
  rw [Nat.zero_shiftLeft, Nat.zero_or]
  have hs : ∀ x : Nat, x >>> 9 = x / 512 := fun x => by
    rw [Nat.shiftRight_eq_div_pow]
  have hs12 : v >>> 12 = v / 4096 := by
    rw [Nat.shiftRight_eq_div_pow]
  have hor9 : ∀ a b : Nat, b < 512 → (a <<< 9) ||| b = a * 512 + b := by
    intro a b hb
    have hh := shiftLeft_or_eq_add a b 9 (by omega)
    norm_num at hh
    exact hh
  have hor12 : ∀ a b : Nat, b < 4096 → (a <<< 12) ||| b = a * 4096 + b := by
    intro a b hb
    have hh := shiftLeft_or_eq_add a b 12 (by omega)
    norm_num at hh
    exact hh
  simp only [and_511_eq_mod, hs, hs12]
  rw [hor9 _ _ (by omega), hor9 _ _ (by omega), hor9 _ _ (by omega), hor12 _ _ hoff]
  norm_num at h
  omega

/-- Witness for `claimC8_roundtrip` at the concrete address 0x123456789A. -/
theorem claimC8_witness :
    0x123456789A < 512 ^ 4 * 4096 ∧
      make_vaddr (parse_vaddr 0x123456789A 4) (0x123456789A % 4096) = 0x123456789A :=
  ⟨by norm_num, claimC8_roundtrip 0x123456789A (by norm_num)⟩

/-!  Claim C10. -/

/-- Claim C10: for every `vaddr` such that some child link on the path from
the root toward the target page-table page is absent — the walk over
`indices[:-2]` fails, or the parent is reached but its child at
`indices[-2]` is absent — `remove_page_table(vaddr)` returns the state
unchanged: every child reference, PTE, metadata slot and `is_stale` flag is
untouched, and nothing is enqueued to the RCU reclaimer. -/
theorem claimC10_remove_absent_noop (s : AddrSpace) (v : Nat)
    (hlen : ¬(parse_vaddr v s.levels).length < 2)
    (habs : walkPath s.root (parse_vaddr v s.levels).dropLast.dropLast = none ∨
      ∀ parent, walkPath s.root (parse_vaddr v s.levels).dropLast.dropLast = some parent →
        parent.get_child ((parse_vaddr v s.levels).dropLast.getLastD 0) = none) :
    s.remove_page_table v = s := by
  simp only [AddrSpace.remove_page_table, if_neg hlen]
  rcases habs with hnone | htgt
  · rw [hnone]
  · cases hw : walkPath s.root (parse_vaddr v s.levels).dropLast.dropLast with
    | none => rfl
    | some parent =>
      simp only []
      rw [htgt parent hw]

/-- Witness for `claimC10_remove_absent_noop`: a fresh address space has no
children at all, so the interior walk for address 0 fails immediately. -/
theorem claimC10_witness :
    ¬(parse_vaddr 0 freshA.levels).length < 2 ∧
      walkPath freshA.root (parse_vaddr 0 freshA.levels).dropLast.dropLast = none ∧
      freshA.remove_page_table 0 = freshA :=
  ⟨by decide, rfl, claimC10_remove_absent_noop freshA 0 (by decide) (Or.inl rfl)⟩

/-!  Claim C4. -/

/-- Claim C4, counterexample: on a fresh system,
`handle_page_fault(0xDEAD000, is_write=false)` does return false, but the
claim's second half fails — no leaf page existed before the call, and after
it the tree contains a leaf page covering 0xDEAD000, created by the lock
acquisition (`lock` calls `_create_leaf_page` when the leaf is absent). -/
theorem claimC4_counterexample :
    (CortenMMSystem.fresh.handle_page_fault 0xDEAD000 false).2 = false ∧
      CortenMMSystem.fresh.addr_space.leafExistsAt 0xDEAD000 = false ∧
      (CortenMMSystem.fresh.handle_page_fault 0xDEAD000 false).1.addr_space.leafExistsAt
        0xDEAD000 = true :=
  ⟨rfl, rfl, rfl⟩

/-- Claim C4, amended: on a fresh address space,
`handle_page_fault(0xDEAD000, is_write=false)` returns false; however the
lock acquisition creates the interior and leaf page-table pages covering the
faulting address.  The created leaf is entirely fresh — every metadata slot
`Invalid` and every PTE non-present — and no frame is allocated. -/
theorem claimC4_amended :
    (CortenMMSystem.fresh.handle_page_fault 0xDEAD000 false).2 = false ∧
      (CortenMMSystem.fresh.handle_page_fault 0xDEAD000 false).1.addr_space.ensure_leaf_page
        0xDEAD000 = some (PageTablePage.fresh 0) ∧
      (CortenMMSystem.fresh.handle_page_fault 0xDEAD000 false).1.addr_space.next_pfn =
        CortenMMSystem.fresh.addr_space.next_pfn :=
  ⟨rfl, rfl, rfl⟩

/-!  Claim C6. -/

/-- Claim C6, counterexample: in the detach of the leaf covering address 0,
the `setStale` transition happens at trace position 5, after the target's
descriptor lock has been released at position 3 — the writer does not hold
the page's lock when `is_stale` is set, contrary to the claim. -/
theorem claimC6_counterexample :
    (detachTrace c6State 0)[5]? = some (LockEvent.setStale [0, 0, 0]) ∧
      pageHeldAfter ((detachTrace c6State 0).take 5) [0, 0, 0] = false := by
  decide

/-- Claim C6, amended: in every execution of the detach path
(`remove_page_table` followed by the reclaimer's `defer_free`), `is_stale`
is set at a point where the writer does NOT hold that page's descriptor lock
— the lock was acquired and released earlier in the same trace — while the
reclaimer mutex and the structural mutex are held. -/
theorem claimC6_amended (s : AddrSpace) (v i : Nat) (p : List Nat)
    (h : (detachTrace s v)[i]? = some (LockEvent.setStale p)) :
    pageHeldAfter ((detachTrace s v).take i) p = false ∧
      reclaimerHeldAfter ((detachTrace s v).take i) = true ∧
      structuralHeldAfter ((detachTrace s v).take i) = true ∧
      ∃ j, j < i ∧ (detachTrace s v)[j]? = some (LockEvent.releasePage p) := by
  simp only [detachTrace] at h ⊢
  by_cases hlen : (parse_vaddr v s.levels).length < 2
  · rw [if_pos hlen] at h ⊢
    rcases i with _ | _ | i <;> simp_all
  · rw [if_neg hlen] at h ⊢
    cases hw : walkPath s.root (parse_vaddr v s.levels).dropLast.dropLast with
    | none =>
      rcases i with _ | _ | i <;> simp_all
    | some parent =>
      simp only [] at h ⊢
      cases hc : parent.get_child ((parse_vaddr v s.levels).dropLast.getLastD 0) with
      | none =>
        rcases i with _ | _ | i <;> simp_all
      | some target =>
        rcases i with _ | _ | _ | _ | _ | _ | _ | _ | _ | i <;> simp_all
        subst h
        refine ⟨?_, ?_, ?_, 3, by omega, rfl⟩ <;>
          simp [pageHeldAfter, reclaimerHeldAfter, structuralHeldAfter, List.take,
            List.foldl]

/-- Witness for `claimC6_amended`: the detach of the leaf at `[0,0,0]` in
`c6State`, whose `setStale` event sits at trace position 5. -/
theorem claimC6_amended_witness :
    (detachTrace c6State 0)[5]? = some (LockEvent.setStale [0, 0, 0]) ∧
      (pageHeldAfter ((detachTrace c6State 0).take 5) [0, 0, 0] = false ∧
        reclaimerHeldAfter ((detachTrace c6State 0).take 5) = true ∧
        structuralHeldAfter ((detachTrace c6State 0).take 5) = true ∧
        ∃ j, j < 5 ∧ (detachTrace c6State 0)[j]? = some (LockEvent.releasePage [0, 0, 0])) :=
  ⟨by decide, claimC6_amended c6State 0 5 [0, 0, 0] (by decide)⟩

/-!  Claim C1. -/

/-- A successful `_dfs_lock_subtree` always lists the subtree root first
(the Python code appends `pt_page` before anything else). -/
theorem dfsGo_shape (fuel : Nat) (page : PageTablePage) (l : List (List Nat))
    (h : dfsGo fuel page = some l) : ∃ t, l = [] :: t := by
  cases fuel with
  | zero => rw [dfsGo] at h; exact absurd h (by simp)
  | succ n =>
    rw [dfsGo] at h
    by_cases hl : page.is_leaf
    · rw [if_pos hl] at h
      simp at h
      exact ⟨[], h.symm⟩
    · rw [if_neg hl] at h
      cases hk : dfsKids (dfsGo n) page 0 512 with
      | none => rw [hk] at h; exact absurd h (by simp)
      | some l2 =>
        rw [hk] at h
        simp at h
        exact ⟨l2, h.symm⟩

theorem lockAttempt_levels (s : AddrSpace) (a e : Nat) (deep : Bool) :
    (s.lockAttempt a e deep).1.levels = s.levels := by
  cases hc : s.ensure_leaf_page a with
  | some page =>
    by_cases hs : page.descriptor.is_stale
    · simp [AddrSpace.lockAttempt, hc, hs]
    · by_cases hd : deep
      · cases hD : dfsGo (page.level + 1) page <;>
          simp [AddrSpace.lockAttempt, hc, hs, hd, hD]
      · simp [AddrSpace.lockAttempt, hc, hs, hd]
  | none =>
    have hlv : (s.create_leaf_page a).1.levels = s.levels := rfl
    by_cases hs : (s.create_leaf_page a).2.descriptor.is_stale
    · simp [AddrSpace.lockAttempt, hc, hs, hlv]
    · by_cases hd : deep
      · cases hD : dfsGo ((s.create_leaf_page a).2.level + 1) (s.create_leaf_page a).2 <;>
          simp [AddrSpace.lockAttempt, hc, hs, hd, hD, hlv]
      · simp [AddrSpace.lockAttempt, hc, hs, hd, hlv]

/-- The shape of any cursor built by one `lockAttempt`: its head lock is the
page at `indices[:-1]` of the (aligned) start address, every other lock lies
strictly inside that page's subtree, and with `deep = false` it is the only
lock taken. -/
theorem lockAttempt_shape (s : AddrSpace) (a e : Nat) (deep : Bool) (s1 : AddrSpace)
    (c : RCursor) (h : s.lockAttempt a e deep = (s1, some c)) :
    c.locked_paths.head? = some (parse_vaddr a s.levels).dropLast ∧
      (∀ p ∈ c.locked_paths, ∃ suffix, p = (parse_vaddr a s.levels).dropLast ++ suffix) ∧
      (deep = false → c.locked_paths = [(parse_vaddr a s.levels).dropLast]) := by
  rw [AddrSpace.lockAttempt] at h
  have main : ∀ (s0 : AddrSpace) (page : PageTablePage),
      (if page.descriptor.is_stale then (s0, (none : Option RCursor))
        else
          if deep then
            match dfsGo (page.level + 1) page with
            | none => (s0, none)
            | some rels =>
              (s0, some { vaddr_start := a
                          vaddr_end := e
                          locked_paths :=
                            rels.map (fun q => (parse_vaddr a s.levels).dropLast ++ q) })
          else
            (s0, some { vaddr_start := a
                        vaddr_end := e
                        locked_paths := [(parse_vaddr a s.levels).dropLast] })) = (s1, some c) →
      c.locked_paths.head? = some (parse_vaddr a s.levels).dropLast ∧
        (∀ p ∈ c.locked_paths, ∃ suffix, p = (parse_vaddr a s.levels).dropLast ++ suffix) ∧
        (deep = false → c.locked_paths = [(parse_vaddr a s.levels).dropLast]) := by
    intro s0 page hpage
    by_cases hs : page.descriptor.is_stale
    · rw [if_pos hs] at hpage
      exact absurd hpage (by simp)
    · rw [if_neg hs] at hpage
      by_cases hd : deep
      · rw [if_pos hd] at hpage
        cases hD : dfsGo (page.level + 1) page with
        | none => rw [hD] at hpage; exact absurd hpage (by simp)
        | some rels =>
          rw [hD] at hpage
          simp only [Prod.mk.injEq, Option.some.injEq] at hpage
          obtain ⟨t, ht⟩ := dfsGo_shape _ _ _ hD
          subst ht
          rcases hpage with ⟨_, hc⟩
          subst hc
          refine ⟨by simp, ?_, by simp [hd]⟩
          intro p hp
          simp only [List.mem_map] at hp
          obtain ⟨q, _, hq⟩ := hp
          exact ⟨q, hq.symm⟩
      · rw [if_neg hd] at hpage
        simp only [Prod.mk.injEq, Option.some.injEq] at hpage
        rcases hpage with ⟨_, hc⟩
        subst hc
        simp [hd]
  cases hc : s.ensure_leaf_page a with
  | some page =>
    simp only [hc] at h
    exact main s page h
  | none =>
    simp only [hc] at h
    exact main (s.create_leaf_page a).1 (s.create_leaf_page a).2 h

theorem lockLoop_shape (a e : Nat) (deep : Bool) :
    ∀ (n : Nat) (s s1 : AddrSpace) (c : RCursor),
      lockLoop a e deep n s = (s1, some c) →
      c.locked_paths.head? = some (parse_vaddr a s.levels).dropLast ∧
        (∀ p ∈ c.locked_paths, ∃ suffix, p = (parse_vaddr a s.levels).dropLast ++ suffix) ∧
        (deep = false → c.locked_paths = [(parse_vaddr a s.levels).dropLast]) := by
  intro n
  induction n with
  | zero =>
    intro s s1 c h
    rw [lockLoop] at h
    exact absurd h (by simp)
  | succ k ih =>
    intro s s1 c h
    rw [lockLoop] at h
    cases hA : s.lockAttempt a e deep with
    | mk s2 oc =>
      rw [hA] at h
      cases oc with
      | some c2 =>
        simp only [Prod.mk.injEq, Option.some.injEq] at h
        rcases h with ⟨h1, h2⟩
        subst h1
        subst h2
        exact lockAttempt_shape s a e deep _ _ hA
      | none =>
        have hlv : s2.levels = s.levels := by
          have := lockAttempt_levels s a e deep
          rw [hA] at this
          exact this
        have := ih s2 s1 c h
        rw [hlv] at this
        exact this

/-- Claim C1, counterexample: on a fresh address space,
`lock(0, 0x202000, deep=false)` — a page-aligned range spanning the two
leaf pages `[0,0,0]` and `[0,0,1]` — succeeds, yet the returned cursor does
not own the lock of the leaf `[0,0,1]`, which covers the address 0x200000
inside the range.  The claimed "locks of every page needed for the range"
is therefore false: `lock` only ever locks the single leaf covering
`vaddr_start` (the code comments call this a simplification). -/
theorem claimC1_counterexample :
    (freshA.lock 0 0x202000 false).2.isSome = true ∧
      ((freshA.lock 0 0x202000 false).2.map
        (fun c => decide ((parse_vaddr 0x200000 4).dropLast ∈ c.locked_paths))) = some false := by
  decide

/-- Claim C1, amended: for every range and either value of `deep`, a
successful `scoped_lock` returns a cursor whose locks all lie inside the
subtree of the single page at `indices[:-1]` of the aligned start address —
that page's lock first — and when `deep = false` that page's lock is the
only one owned.  Leaf pages covering later parts of a multi-leaf range are
not locked. -/
theorem claimC1_amended (s : AddrSpace) (v1 v2 : Nat) (deep : Bool) (s1 : AddrSpace)
    (c : RCursor) (hL : s.lock v1 v2 deep = (s1, some c)) :
    c.locked_paths.head? = some (parse_vaddr (alignDown v1) s.levels).dropLast ∧
      (∀ p ∈ c.locked_paths,
        ∃ suffix, p = (parse_vaddr (alignDown v1) s.levels).dropLast ++ suffix) ∧
      (deep = false → c.locked_paths = [(parse_vaddr (alignDown v1) s.levels).dropLast]) := by
  rw [AddrSpace.lock] at hL
  exact lockLoop_shape (alignDown v1) (alignUp v2) deep 10 s s1 c hL

/-- Witness for `claimC1_amended`: locking one page of a fresh space. -/
theorem claimC1_amended_witness :
    ((freshA.lock 0 0x1000 false).2.map RCursor.locked_paths) = some [[0, 0, 0]] := by
  have h := (claimC1_amended freshA 0 0x1000 false _ _ rfl).2.2 rfl
  exact congrArg some h

/-!  Alignment arithmetic and single-page cursor characterisations, used to
execute the system calls symbolically for claims C3, C7 and C9. -/

theorem alignDown_le (v : Nat) : alignDown v ≤ v :=
  Nat.div_mul_le_self v 4096

theorem lt_alignDown_add (v : Nat) : v < alignDown v + 4096 := by
  rw [alignDown]; omega

theorem alignDown_alignDown (v : Nat) : alignDown (alignDown v) = alignDown v := by
  rw [alignDown, alignDown]; omega

theorem alignDown_of_mod (v : Nat) (h : v % 4096 = 0) : alignDown v = v := by
  rw [alignDown]; omega

theorem alignUp_of_mod (v : Nat) (h : v % 4096 = 0) : alignUp v = v := by
  rw [alignUp]; omega

theorem alignUp_alignDown_add (v : Nat) : alignUp (alignDown v + 4096) = alignDown v + 4096 := by
  rw [alignUp, alignDown]; omega

theorem shiftRight12_alignDown (v : Nat) : alignDown v >>> 12 = v >>> 12 := by
  rw [Nat.shiftRight_eq_div_pow, Nat.shiftRight_eq_div_pow, alignDown]
  norm_num

theorem parse_alignDown (v L : Nat) : parse_vaddr (alignDown v) L = parse_vaddr v L := by
  rw [parse_vaddr, parse_vaddr, shiftRight12_alignDown]

theorem ensure_alignDown (s : AddrSpace) (v : Nat) :
    s.ensure_leaf_page (alignDown v) = s.ensure_leaf_page v := by
  rw [AddrSpace.ensure_leaf_page, AddrSpace.ensure_leaf_page, parse_alignDown]

theorem pteIndex_alignDown (v : Nat) : pteIndex (alignDown v) = pteIndex v := by
  rw [pteIndex, pteIndex, parse_alignDown]

theorem is_leaf_true (p : PageTablePage) (h : p.level = 0) : p.is_leaf = true := by
  simp [PageTablePage.is_leaf, h]

theorem lockLoop_succ (a e : Nat) (d : Bool) (n : Nat) (s : AddrSpace) :
    lockLoop a e d (n + 1) s =
      match s.lockAttempt a e d with
      | (s1, some c) => (s1, some c)
      | (s1, none) => lockLoop a e d n s1 := rfl

/-- One `lockAttempt` on an address whose leaf already exists and is not
stale: the state is untouched and the cursor holds exactly that leaf. -/
theorem lockAttempt_found (s : AddrSpace) (a e : Nat) (leaf : PageTablePage)
    (hE : s.ensure_leaf_page a = some leaf) (hst : leaf.descriptor.is_stale = false) :
    s.lockAttempt a e false =
      (s, some { vaddr_start := a, vaddr_end := e,
                 locked_paths := [(parse_vaddr a s.levels).dropLast] }) := by
  rw [AddrSpace.lockAttempt]
  simp [hE, hst]

/-- `AddrSpace.lock` with `deep=false` on an address whose (aligned) leaf
exists and is not stale: succeeds on the first attempt with the state
untouched. -/
theorem lock_found (s : AddrSpace) (v1 v2 : Nat) (leaf : PageTablePage)
    (hE : s.ensure_leaf_page (alignDown v1) = some leaf)
    (hst : leaf.descriptor.is_stale = false) :
    s.lock v1 v2 false =
      (s, some { vaddr_start := alignDown v1, vaddr_end := alignUp v2,
                 locked_paths := [(parse_vaddr (alignDown v1) s.levels).dropLast] }) := by
  rw [AddrSpace.lock, show (10 : Nat) = 9 + 1 from rfl, lockLoop_succ,
    lockAttempt_found s (alignDown v1) (alignUp v2) leaf hE hst]

/-- A failed-validation `lockAttempt` (stale leaf) leaves the state alone. -/
theorem lockAttempt_stale (s : AddrSpace) (a e : Nat) (d : Bool) (leaf : PageTablePage)
    (hE : s.ensure_leaf_page a = some leaf) (hst : leaf.descriptor.is_stale = true) :
    s.lockAttempt a e d = (s, none) := by
  rw [AddrSpace.lockAttempt]
  simp [hE, hst]

/-- `AddrSpace.lock` on an existing but stale leaf: every retry fails and
the state is returned unchanged. -/
theorem lock_stale (s : AddrSpace) (v1 v2 : Nat) (d : Bool) (leaf : PageTablePage)
    (hE : s.ensure_leaf_page (alignDown v1) = some leaf)
    (hst : leaf.descriptor.is_stale = true) :
    s.lock v1 v2 d = (s, none) := by
  rw [AddrSpace.lock]
  have hloop : ∀ n, lockLoop (alignDown v1) (alignUp v2) d n s = (s, none) := by
    intro n
    induction n with
    | zero => rw [lockLoop]
    | succ k ih => rw [lockLoop_succ, lockAttempt_stale s _ _ d leaf hE hst]; exact ih
  exact hloop 10

theorem findLeafPath_single (root : PageTablePage) (p : List Nat) (page : PageTablePage)
    (hw : walkPath root p = some page) (hl : page.is_leaf = true) :
    findLeafPath root [p] = some p := by
  simp [findLeafPath, hw, hl]

theorem queryOp_single (a e v : Nat) (root page : PageTablePage) (p : List Nat)
    (hb : a ≤ v ∧ v < e) (hw : walkPath root p = some page) (hl : page.is_leaf = true) :
    RCursor.queryOp { vaddr_start := a, vaddr_end := e, locked_paths := [p] } root v =
      some (page.get_metadata (pteIndex v)).status := by
  rw [RCursor.queryOp]
  simp only [if_pos hb]
  rw [findLeafPath_single root p page hw hl]
  simp [hw]

theorem get_pm_single (a e v : Nat) (root page : PageTablePage) (p : List Nat)
    (hb : a ≤ v ∧ v < e) (hw : walkPath root p = some page) (hl : page.is_leaf = true) :
    RCursor.get_pte_and_metadata { vaddr_start := a, vaddr_end := e, locked_paths := [p] }
        root v =
      some (page.get_pte (pteIndex v), page.get_metadata (pteIndex v)) := by
  rw [RCursor.get_pte_and_metadata]
  simp only [if_pos hb]
  rw [findLeafPath_single root p page hw hl]
  simp [hw]

theorem mapOp_single (a e v pfn : Nat) (w : Bool) (root page : PageTablePage) (p : List Nat)
    (hb : a ≤ v ∧ v < e) (hw : walkPath root p = some page) (hl : page.is_leaf = true) :
    RCursor.mapOp { vaddr_start := a, vaddr_end := e, locked_paths := [p] } root v pfn w =
      some (updateAtPath root p (fun pg => pg.map_entry (pteIndex v) pfn w)) := by
  rw [RCursor.mapOp]
  simp only [if_pos hb]
  rw [findLeafPath_single root p page hw hl]

@[simp] theorem allocate_pfn_root (s : AddrSpace) : s.allocate_pfn.1.root = s.root := rfl

@[simp] theorem allocate_pfn_next (s : AddrSpace) :
    s.allocate_pfn.1.next_pfn = s.next_pfn + 1 := rfl

@[simp] theorem allocate_pfn_levels (s : AddrSpace) :
    s.allocate_pfn.1.levels = s.levels := rfl

@[simp] theorem allocate_pfn_val (s : AddrSpace) : s.allocate_pfn.2 = s.next_pfn := rfl

@[simp] theorem updMap_same (f : Nat → Option Nat) (k v : Nat) : updMap f k v k = some v := by
  simp [updMap]

theorem updMap_other (f : Nat → Option Nat) (k v j : Nat) (h : j ≠ k) :
    updMap f k v j = f j := by
  simp [updMap, h]

/-- `lockAttempt` on an absent leaf: `_create_leaf_page` runs, the fresh
leaf validates, and the cursor holds it. -/
theorem lockAttempt_create (s : AddrSpace) (a e : Nat)
    (hE : s.ensure_leaf_page a = none)
    (hst : (s.create_leaf_page a).2.descriptor.is_stale = false) :
    s.lockAttempt a e false =
      ((s.create_leaf_page a).1,
        some { vaddr_start := a, vaddr_end := e,
               locked_paths := [(parse_vaddr a s.levels).dropLast] }) := by
  rw [AddrSpace.lockAttempt]
  simp [hE, hst]

/-- `lock` with already-aligned bounds on an absent leaf. -/
theorem lock_create_aligned (s : AddrSpace) (v1 v2 : Nat) (h1 : alignDown v1 = v1)
    (h2 : alignUp v2 = v2) (hE : s.ensure_leaf_page v1 = none)
    (hst : (s.create_leaf_page v1).2.descriptor.is_stale = false) :
    s.lock v1 v2 false =
      ((s.create_leaf_page v1).1,
        some { vaddr_start := v1, vaddr_end := v2,
               locked_paths := [(parse_vaddr v1 s.levels).dropLast] }) := by
  rw [AddrSpace.lock, h1, h2, show (10 : Nat) = 9 + 1 from rfl, lockLoop_succ,
    lockAttempt_create s v1 v2 hE hst]

/-- `lock` with already-aligned bounds on an existing, non-stale leaf. -/
theorem lock_found_aligned (s : AddrSpace) (v1 v2 : Nat) (leaf : PageTablePage)
    (h1 : alignDown v1 = v1) (h2 : alignUp v2 = v2)
    (hE : s.ensure_leaf_page v1 = some leaf)
    (hst : leaf.descriptor.is_stale = false) :
    s.lock v1 v2 false =
      (s, some { vaddr_start := v1, vaddr_end := v2,
                 locked_paths := [(parse_vaddr v1 s.levels).dropLast] }) := by
  rw [AddrSpace.lock, h1, h2, show (10 : Nat) = 9 + 1 from rfl, lockLoop_succ,
    lockAttempt_found s v1 v2 leaf hE hst]

/-!  Claim C9. -/

/-- Claim C9: if `handle_page_fault` is called with `is_write=true` on an
address whose entry has `metadata.status = COW` but whose PTE is not valid
(not present or frame unset), it returns false and leaves every PTE field
and every metadata slot of the address space unchanged — the tree, the
frame-allocator counter and the COW refcount map are all untouched. -/
theorem claimC9_cow_invalid_pte (sys : CortenMMSystem) (v : Nat) (leaf : PageTablePage)
    (hE : sys.addr_space.ensure_leaf_page v = some leaf)
    (hlvl : leaf.level = 0)
    (hst : leaf.descriptor.is_stale = false)
    (hcow : (leaf.get_metadata (pteIndex v)).status = Status.COW)
    (hinv : (leaf.get_pte (pteIndex v)).is_valid = false) :
    (sys.handle_page_fault v true).2 = false ∧
      (sys.handle_page_fault v true).1.addr_space.root = sys.addr_space.root ∧
      (sys.handle_page_fault v true).1.addr_space.next_pfn = sys.addr_space.next_pfn ∧
      (sys.handle_page_fault v true).1.cow_refcounts = sys.cow_refcounts := by
  have hE0 : sys.addr_space.ensure_leaf_page (alignDown v) = some leaf := by
    rw [ensure_alignDown]; exact hE
  have hAA : alignDown (alignDown v) = alignDown v := alignDown_alignDown v
  have hE00 : sys.addr_space.ensure_leaf_page (alignDown (alignDown v)) = some leaf := by
    rw [hAA]; exact hE0
  have hL := lock_found sys.addr_space (alignDown v) (alignDown v + 0x1000) leaf hE00 hst
  rw [hAA] at hL
  have hw := hE0
  rw [AddrSpace.ensure_leaf_page] at hw
  have hl := is_leaf_true leaf hlvl
  have hb : alignDown v ≤ v ∧ v < alignUp (alignDown v + 0x1000) := by
    rw [alignUp_alignDown_add]
    exact ⟨alignDown_le v, lt_alignDown_add v⟩
  have hq := queryOp_single (alignDown v) (alignUp (alignDown v + 0x1000)) v
    sys.addr_space.root leaf _ hb hw hl
  have hg := get_pm_single (alignDown v) (alignUp (alignDown v + 0x1000)) v
    sys.addr_space.root leaf _ hb hw hl
  rw [CortenMMSystem.handle_page_fault, hL]
  simp only []
  rw [hq, hcow]
  simp only [if_pos rfl]
  rw [CortenMMSystem.handle_cow_write, hg]
  simp only [hinv]
  exact ⟨rfl, rfl, rfl, rfl⟩

/-- Witness for `claimC9_cow_invalid_pte`: the hand-built system `c9Sys`
whose entry 0 is `COW` with a cleared PTE. -/
theorem claimC9_witness :
    c9Sys.addr_space.ensure_leaf_page 0 = some c9Leaf ∧
      ((c9Sys.handle_page_fault 0 true).2 = false ∧
        (c9Sys.handle_page_fault 0 true).1.addr_space.root = c9Sys.addr_space.root ∧
        (c9Sys.handle_page_fault 0 true).1.addr_space.next_pfn = c9Sys.addr_space.next_pfn ∧
        (c9Sys.handle_page_fault 0 true).1.cow_refcounts = c9Sys.cow_refcounts) :=
  ⟨rfl, claimC9_cow_invalid_pte c9Sys 0 c9Leaf rfl rfl rfl rfl rfl⟩

/-!  Claim C3. -/

/-- Claim C3: COW-resolve, the write path of `handle_page_fault` on an entry
with status `COW` and a valid PTE holding frame `F` (with `F` below the
allocator counter, as holds for every frame the allocator handed out).  The
handler returns true, and: if the global refcount of `F` is greater than 1,
a new frame `F1 = next_pfn` distinct from `F` is allocated and mapped with
`PTE.rw = true`, the global refcount of `F` is decremented by one, that of
`F1` is set to 1, and the metadata ends with `status = PrivateAnon`,
`refcount = 1`; if the global refcount of `F` equals 1, no new frame is
allocated (the allocator counter and the refcount map are unchanged),
`PTE.rw` is flipped to true in place with the same frame `F`, and the
metadata ends with `status = PrivateAnon`, `refcount = 1`. -/
theorem claimC3_cow_resolve (sys : CortenMMSystem) (v F : Nat) (leaf : PageTablePage)
    (hE : sys.addr_space.ensure_leaf_page v = some leaf)
    (hlvl : leaf.level = 0)
    (hst : leaf.descriptor.is_stale = false)
    (hcow : (leaf.get_metadata (pteIndex v)).status = Status.COW)
    (hpres : (leaf.get_pte (pteIndex v)).present = true)
    (hpfn : (leaf.get_pte (pteIndex v)).pfn = some F)
    (hF : F < sys.addr_space.next_pfn) :
    (sys.handle_page_fault v true).2 = true ∧
      (1 < (sys.cow_refcounts F).getD 1 →
        (sys.handle_page_fault v true).1.addr_space.next_pfn = sys.addr_space.next_pfn + 1 ∧
        sys.addr_space.next_pfn ≠ F ∧
        (sys.handle_page_fault v true).1.addr_space.pteAt v =
          some { leaf.get_pte (pteIndex v) with
                 pfn := some sys.addr_space.next_pfn
                 present := true
                 rw := true
                 user := true } ∧
        (sys.handle_page_fault v true).1.cow_refcounts F =
          some ((sys.cow_refcounts F).getD 1 - 1) ∧
        (sys.handle_page_fault v true).1.cow_refcounts sys.addr_space.next_pfn = some 1 ∧
        (sys.handle_page_fault v true).1.addr_space.metaAt v =
          some { leaf.get_metadata (pteIndex v) with
                 status := Status.PrivateAnon
                 soft_perm := 7
                 refcount := 1 }) ∧
      ((sys.cow_refcounts F).getD 1 = 1 →
        (sys.handle_page_fault v true).1.addr_space.next_pfn = sys.addr_space.next_pfn ∧
        (sys.handle_page_fault v true).1.cow_refcounts = sys.cow_refcounts ∧
        (sys.handle_page_fault v true).1.addr_space.pteAt v =
          some { leaf.get_pte (pteIndex v) with rw := true } ∧
        (sys.handle_page_fault v true).1.addr_space.metaAt v =
          some { leaf.get_metadata (pteIndex v) with
                 status := Status.PrivateAnon
                 refcount := 1 }) := by
  have hE0 : sys.addr_space.ensure_leaf_page (alignDown v) = some leaf := by
    rw [ensure_alignDown]; exact hE
  have hAA : alignDown (alignDown v) = alignDown v := alignDown_alignDown v
  have hE00 : sys.addr_space.ensure_leaf_page (alignDown (alignDown v)) = some leaf := by
    rw [hAA]; exact hE0
  have hL := lock_found sys.addr_space (alignDown v) (alignDown v + 0x1000) leaf hE00 hst
  rw [hAA, parse_alignDown] at hL
  have hw := hE
  rw [AddrSpace.ensure_leaf_page] at hw
  have hl := is_leaf_true leaf hlvl
  have hb : alignDown v ≤ v ∧ v < alignUp (alignDown v + 0x1000) := by
    rw [alignUp_alignDown_add]
    exact ⟨alignDown_le v, lt_alignDown_add v⟩
  have hq := queryOp_single (alignDown v) (alignUp (alignDown v + 0x1000)) v
    sys.addr_space.root leaf _ hb hw hl
  have hg := get_pm_single (alignDown v) (alignUp (alignDown v + 0x1000)) v
    sys.addr_space.root leaf _ hb hw hl
  have hval : (leaf.get_pte (pteIndex v)).is_valid = true := by
    simp [PTE.is_valid, hpres, hpfn]
  rw [CortenMMSystem.handle_page_fault, hL]
  simp only []
  rw [hq, hcow]
  simp only [eq_self_iff_true, if_true]
  rw [CortenMMSystem.handle_cow_write, hg]
  simp only []
  rw [if_pos hval, hpfn]
  simp only [Option.getD_some]
  by_cases hrc : 1 < (sys.cow_refcounts F).getD 1
  · rw [if_pos hrc]
    have hMap := mapOp_single (alignDown v) (alignUp (alignDown v + 0x1000)) v
      sys.addr_space.next_pfn true sys.addr_space.root leaf _ hb hw hl
    simp only [allocate_pfn_root, allocate_pfn_val]
    rw [hMap]
    simp only []
    have hw1 := walkPath_updateAtPath _ sys.addr_space.root leaf
      (fun pg => pg.map_entry (pteIndex v) sys.addr_space.next_pfn true) hw
    have hl1 : (leaf.map_entry (pteIndex v) sys.addr_space.next_pfn true).is_leaf = true := by
      apply is_leaf_true
      rw [map_entry_level]
      exact hlvl
    rw [findLeafPath_single _ _ _ hw1 hl1]
    have hw2 := walkPath_updateAtPath _ _ _
      (fun pg => pg.cow_priv_entry (pteIndex v)) hw1
    have hl2 : ((leaf.map_entry (pteIndex v) sys.addr_space.next_pfn true).cow_priv_entry
        (pteIndex v)).is_leaf = true := by
      apply is_leaf_true
      rw [cow_priv_entry_level, map_entry_level]
      exact hlvl
    refine ⟨?_, fun _ => ⟨?_, ?_, ?_, ?_, ?_, ?_⟩, fun h1 => absurd h1 (by omega)⟩
    · first | rfl | trivial
    · rfl
    · omega
    · simp only [AddrSpace.pteAt, AddrSpace.ensure_leaf_page, post_scope_root,
        post_scope_levels, allocate_pfn_levels]
      simp [hw2, hl2, cow_priv_entry_get_pte, map_entry_get_pte]
    · rw [updMap_other _ _ _ _ (by omega), updMap_same]
    · rw [updMap_same]
    · simp only [AddrSpace.metaAt, AddrSpace.ensure_leaf_page, post_scope_root,
        post_scope_levels, allocate_pfn_levels]
      simp [hw2, hl2, cow_priv_entry_get_metadata, map_entry_get_metadata]
  · rw [if_neg hrc]
    rw [findLeafPath_single _ _ _ hw hl]
    have hw1 := walkPath_updateAtPath _ sys.addr_space.root leaf
      (fun pg => pg.cow_flip_entry (pteIndex v)) hw
    have hlf : ((leaf.cow_flip_entry (pteIndex v)).is_leaf) = true := by
      apply is_leaf_true
      rw [cow_flip_entry_level]
      exact hlvl
    refine ⟨?_, fun hA => absurd hA hrc, fun _ => ⟨?_, ?_, ?_, ?_⟩⟩
    · rfl
    · rfl
    · rfl
    · simp only [AddrSpace.pteAt, AddrSpace.ensure_leaf_page, post_scope_root,
        post_scope_levels]
      simp [hw1, hlf, cow_flip_entry_get_pte]
      exact hpfn
    · simp only [AddrSpace.metaAt, AddrSpace.ensure_leaf_page, post_scope_root,
        post_scope_levels]
      simp [hw1, hlf, cow_flip_entry_get_metadata]

/-!  Claim C7: the mmap / fault / munmap round trip, one step at a time. -/

theorem c7_markLoop_one (paths : List (List Nat)) (st : Status) (pm v : Nat)
    (root : PageTablePage) : markLoop paths st pm v 1 root = markAll paths v st pm root := rfl

theorem c7_unmapLoop_one (paths : List (List Nat)) (v : Nat) (root : PageTablePage) :
    unmapLoop paths v 1 root = unmapStep paths v root := rfl

theorem c7_create_root (a : Nat) :
    (CortenMMSystem.fresh.addr_space.create_leaf_page a).1.root =
      (create_leaf_go (PageTablePage.fresh 3) (c7Path a) 2).1 := rfl

theorem c7_create_leaf (a : Nat) :
    (create_leaf_go (PageTablePage.fresh 3) (c7Path a) 2).2 = PageTablePage.fresh 0 := by
  have h : ∀ i1 i2 i3 : Nat,
      (create_leaf_go (PageTablePage.fresh 3) [i1, i2, i3] 2).2 = PageTablePage.fresh 0 := by
    intro i1 i2 i3
    rfl
  exact h _ _ _

theorem c7_walk_R1 (a : Nat) :
    walkPath (create_leaf_go (PageTablePage.fresh 3) (c7Path a) 2).1 (c7Path a) =
      some (PageTablePage.fresh 0) := by
  rw [walkPath_create_leaf_go, c7_create_leaf]

/-- Step 1: `mmap(a, 4096, prot=3)` on the fresh system creates the leaf,
marks the entry `PrivateAnon`, and returns `a`. -/
theorem c7_step1 (a : Nat) (ha : a % 4096 = 0) :
    CortenMMSystem.fresh.do_syscall_mmap a 4096 3 = (c7S1 a, (a : Int)) := by
  have had : alignDown a = a := alignDown_of_mod a ha
  have ha2 : alignUp (a + 4096) = a + 4096 := alignUp_of_mod _ (by omega)
  rw [CortenMMSystem.do_syscall_mmap, had, ha2]
  rw [lock_create_aligned CortenMMSystem.fresh.addr_space a (a + 4096) had ha2 rfl rfl]
  simp only []
  rw [RCursor.mark]
  simp only []
  rw [show (a + 4096 - a + 4095) / 4096 = 1 from by omega]
  rw [c7_markLoop_one, markAll]
  simp only [List.foldl_cons, List.foldl_nil]
  rw [show (parse_vaddr a CortenMMSystem.fresh.addr_space.levels).dropLast = c7Path a from rfl]
  rw [c7_create_root, c7_walk_R1]
  simp only []
  rw [if_pos (show (PageTablePage.fresh 0).is_leaf = true from rfl)]
  rfl

theorem c7_walk_A1 (a : Nat) :
    walkPath (c7A1 a).root (c7Path a) = some (c7Leaf1 a) :=
  walkPath_updateAtPath (c7Path a) (create_leaf_go (PageTablePage.fresh 3) (c7Path a) 2).1
    (PageTablePage.fresh 0) (fun pg => pg.mark_entry (pteIndex a) Status.PrivateAnon 3)
    (c7_walk_R1 a)

/-- Step 2: a write fault at `a` on the freshly mmapped system allocates frame
0x1000, maps it writable and returns true. -/
theorem c7_step2 (a : Nat) (ha : a % 4096 = 0) :
    (c7S1 a).handle_page_fault a true = (c7S2 a, true) := by
  have had : alignDown a = a := alignDown_of_mod a ha
  have hE : (c7S1 a).addr_space.ensure_leaf_page a = some (c7Leaf1 a) := c7_walk_A1 a
  have hst : (c7Leaf1 a).descriptor.is_stale = false := rfl
  have hl : (c7Leaf1 a).is_leaf = true := rfl
  have hw : walkPath (c7S1 a).addr_space.root (c7Path a) = some (c7Leaf1 a) := c7_walk_A1 a
  have hb : a ≤ a ∧ a < a + 0x1000 := ⟨Nat.le_refl a, by omega⟩
  have hL := lock_found_aligned (c7S1 a).addr_space a (a + 0x1000) (c7Leaf1 a) had
    (alignUp_of_mod _ (by omega)) hE hst
  have hq := queryOp_single a (a + 0x1000) a (c7S1 a).addr_space.root (c7Leaf1 a)
    (c7Path a) hb hw hl
  have hqs : ((c7Leaf1 a).get_metadata (pteIndex a)).status = Status.PrivateAnon := by
    simp only [c7Leaf1]
    rw [mark_entry_get_metadata]
    simp
  have hMap := mapOp_single a (a + 0x1000) a 0x1000 true (c7S1 a).addr_space.root (c7Leaf1 a)
    (c7Path a) hb hw hl
  rw [CortenMMSystem.handle_page_fault, had, hL]
  simp only []
  rw [show (parse_vaddr a (c7S1 a).addr_space.levels).dropLast = c7Path a from rfl]
  rw [hq, hqs]
  simp only []
  simp only [allocate_pfn_root, allocate_pfn_val]
  rw [show (c7S1 a).addr_space.next_pfn = 0x1000 from rfl]
  rw [hMap]
  simp only []
  rfl

theorem c7_walk_A2 (a : Nat) :
    walkPath (c7A2 a).root (c7Path a) = some (c7Leaf2 a) :=
  walkPath_updateAtPath (c7Path a) (c7A1 a).root (c7Leaf1 a)
    (fun pg => pg.map_entry (pteIndex a) 0x1000 true) (c7_walk_A1 a)

/-- Step 3: `munmap(a, 4096)` on the faulted system clears the entry and
returns 0. -/
theorem c7_step3 (a : Nat) (ha : a % 4096 = 0) :
    (c7S2 a).do_syscall_munmap a 4096 = (c7S3 a, 0) := by
  have had : alignDown a = a := alignDown_of_mod a ha
  have ha2 : alignUp (a + 4096) = a + 4096 := alignUp_of_mod _ (by omega)
  have hE : (c7S2 a).addr_space.ensure_leaf_page a = some (c7Leaf2 a) := c7_walk_A2 a
  have hst : (c7Leaf2 a).descriptor.is_stale = false := rfl
  have hL := lock_found_aligned (c7S2 a).addr_space a (a + 4096) (c7Leaf2 a) had ha2 hE hst
  rw [CortenMMSystem.do_syscall_munmap, had, ha2, hL]
  simp only []
  rw [RCursor.unmap_range]
  simp only []
  rw [show (a + 4096 - a + 4095) / 4096 = 1 from by omega]
  rw [c7_unmapLoop_one]
  rw [show (parse_vaddr a (c7S2 a).addr_space.levels).dropLast = c7Path a from rfl]
  rfl

/-- Step 4: after the round trip the entry for `a` reads back `Invalid`. -/
theorem c7_step4 (a : Nat) :
    (c7S3 a).addr_space.statusAt a = Status.Invalid := by
  have hw2 : walkPath (c7A2 a).root (c7Path a) = some (c7Leaf2 a) := c7_walk_A2 a
  have hl2 : (c7Leaf2 a).is_leaf = true := rfl
  have hfind : findLeafPath (c7A2 a).root [c7Path a] = some (c7Path a) :=
    findLeafPath_single _ _ _ hw2 hl2
  have hmeta : ((c7Leaf2 a).get_metadata (pteIndex a)).status = Status.Mapped := by
    simp only [c7Leaf2]
    rw [map_entry_get_metadata]
    simp
  have hw3 := walkPath_updateAtPath (c7Path a) (c7A2 a).root (c7Leaf2 a)
    (fun page =>
      if (page.get_metadata (pteIndex a)).status ≠ Status.Invalid then
        page.clear_entry (pteIndex a)
      else page) hw2
  have hroot : (c7S3 a).addr_space.root =
      updateAtPath (c7A2 a).root (c7Path a)
        (fun page =>
          if (page.get_metadata (pteIndex a)).status ≠ Status.Invalid then
            page.clear_entry (pteIndex a)
          else page) := by
    show unmapStep [c7Path a] a (c7A2 a).root = _
    rw [unmapStep, hfind]
  have hE3 : (c7S3 a).addr_space.ensure_leaf_page a =
      some ((c7Leaf2 a).clear_entry (pteIndex a)) := by
    rw [AddrSpace.ensure_leaf_page, hroot,
      show (parse_vaddr a (c7S3 a).addr_space.levels).dropLast = c7Path a from rfl, hw3]
    simp only []
    rw [if_pos (by rw [hmeta]; decide)]
  rw [AddrSpace.statusAt, hE3]
  simp only []
  rw [if_pos (is_leaf_true _ (by rw [clear_entry_level]; rfl))]
  rw [clear_entry_get_metadata]
  simp

/-- Claim C7: round trip — for a page-aligned address `a` on a fresh system,
`mmap(a, 4096, RW)` succeeds returning `a`, the write fault at `a` succeeds
returning true, `munmap(a, 4096)` succeeds returning 0, and afterwards
`query(a)` reads `Invalid`. -/
theorem claimC7_roundtrip (a : Nat) (ha : a % 4096 = 0) :
    (CortenMMSystem.fresh.do_syscall_mmap a 4096 3).2 = (a : Int) ∧
      ((CortenMMSystem.fresh.do_syscall_mmap a 4096 3).1.handle_page_fault a true).2 = true ∧
      (((CortenMMSystem.fresh.do_syscall_mmap a 4096
          3).1.handle_page_fault a true).1.do_syscall_munmap a 4096).2 = 0 ∧
      (((CortenMMSystem.fresh.do_syscall_mmap a 4096
          3).1.handle_page_fault a true).1.do_syscall_munmap a
            4096).1.addr_space.statusAt a = Status.Invalid := by
  have h1 := c7_step1 a ha
  have h2 := c7_step2 a ha
  have h3 := c7_step3 a ha
  refine ⟨?_, ?_, ?_, ?_⟩
  · rw [h1]
  · rw [h1]
    simp only []
    rw [h2]
  · rw [h1]
    simp only []
    rw [h2]
    simp only []
    rw [h3]
  · rw [h1]
    simp only []
    rw [h2]
    simp only []
    rw [h3]
    simp only []
    exact c7_step4 a

/-- Witness for `claimC7_roundtrip` at the page-aligned address 0x10000. -/
theorem claimC7_witness :
    (0x10000 : Nat) % 4096 = 0 ∧
      ((CortenMMSystem.fresh.do_syscall_mmap 0x10000 4096 3).2 = ((0x10000 : Nat) : Int) ∧
        ((CortenMMSystem.fresh.do_syscall_mmap 0x10000 4096
            3).1.handle_page_fault 0x10000 true).2 = true ∧
        (((CortenMMSystem.fresh.do_syscall_mmap 0x10000 4096
            3).1.handle_page_fault 0x10000 true).1.do_syscall_munmap 0x10000 4096).2 = 0 ∧
        (((CortenMMSystem.fresh.do_syscall_mmap 0x10000 4096
            3).1.handle_page_fault 0x10000 true).1.do_syscall_munmap 0x10000
              4096).1.addr_space.statusAt 0x10000 = Status.Invalid) :=
  ⟨by decide, claimC7_roundtrip 0x10000 (by decide)⟩

/-- Witness for `claimC3_cow_resolve`: the concrete system `c3Sys`, whose
entry at 0x30000 is `COW` over frame 0x1000 with global refcount 2. -/
theorem claimC3_witness :
    1 < (c3Sys.cow_refcounts 0x1000).getD 1 ∧
      (c3Sys.handle_page_fault 0x30000 true).2 = true ∧
      (c3Sys.handle_page_fault 0x30000 true).1.addr_space.next_pfn =
        c3Sys.addr_space.next_pfn + 1 := by
  have h := claimC3_cow_resolve c3Sys 0x30000 0x1000
    ((c3Sys.addr_space.ensure_leaf_page 0x30000).getD (PageTablePage.fresh 0))
    rfl rfl rfl rfl rfl rfl (by decide)
  exact ⟨by decide, h.1, (h.2.1 (by decide)).1⟩

end Cortenmm
